import Mathlib

/-!
# Verification of the rook mon health checker and rolling-update coordinator

Shallow embedding of `pkg/operator/ceph/cluster/mon/health.go` and
`pkg/operator/k8sutil/statefulset.go`.  Go maps with string keys are modelled
as association lists (`List (String × α)`) with map-like insert/erase/lookup;
external collaborators (Kubernetes API, ceph commands, config persistence)
are modelled as oracles describing the outcome of each external call, and the
functions additionally return a trace of the remedial actions they perform.
-/

namespace Rook

/-! ## Association-list helpers modelling Go maps with string keys -/

/-- Lookup in a Go-map model. -/
def lookupKey : List (String × α) → String → Option α
  | [], _ => none
  | p :: t, k => if p.1 = k then some p.2 else lookupKey t k

/-- Deletion from a Go-map model (`delete(m, k)`). -/
def eraseKey : List (String × α) → String → List (String × α)
  | [], _ => []
  | p :: t, k => if p.1 = k then eraseKey t k else p :: eraseKey t k

/-- Assignment into a Go-map model (`m[k] = v`, replacing any previous binding). -/
def insertKey (l : List (String × α)) (k : String) (v : α) : List (String × α) :=
  (k, v) :: eraseKey l k

/-- Deletion from a Go string-set model. -/
def eraseStr : List String → String → List String
  | [], _ => []
  | s :: t, k => if s = k then eraseStr t k else s :: eraseStr t k

theorem lookupKey_nil (k : String) : lookupKey ([] : List (String × α)) k = none := rfl

theorem lookupKey_cons (p : String × α) (t : List (String × α)) (k : String) :
    lookupKey (p :: t) k = if p.1 = k then some p.2 else lookupKey t k := rfl

theorem eraseKey_cons (p : String × α) (t : List (String × α)) (k : String) :
    eraseKey (p :: t) k = if p.1 = k then eraseKey t k else p :: eraseKey t k := rfl

theorem lookupKey_eraseKey_self (l : List (String × α)) (k : String) :
    lookupKey (eraseKey l k) k = none := by
  induction l with
  | nil => rfl
  | cons p t ih =>
    rw [eraseKey_cons]
    by_cases h : p.1 = k
    · simpa [h] using ih
    · rw [if_neg h, lookupKey_cons, if_neg h]
      exact ih

theorem lookupKey_eraseKey_ne (l : List (String × α)) {k n : String} (h : k ≠ n) :
    lookupKey (eraseKey l n) k = lookupKey l k := by
  induction l with
  | nil => rfl
  | cons p t ih =>
    rw [eraseKey_cons]
    by_cases hp : p.1 = n
    · rw [if_pos hp, lookupKey_cons, if_neg (by rw [hp]; exact fun e => h e.symm)]
      exact ih
    · rw [if_neg hp, lookupKey_cons, lookupKey_cons]
      by_cases hk : p.1 = k
      · rw [if_pos hk, if_pos hk]
      · rw [if_neg hk, if_neg hk]
        exact ih

theorem lookupKey_insertKey_self (l : List (String × α)) (k : String) (v : α) :
    lookupKey (insertKey l k v) k = some v := by
  unfold insertKey
  rw [lookupKey_cons, if_pos rfl]

theorem lookupKey_insertKey_ne (l : List (String × α)) {k n : String} (h : k ≠ n) (v : α) :
    lookupKey (insertKey l n v) k = lookupKey l k := by
  unfold insertKey
  rw [lookupKey_cons, if_neg (fun e => h e.symm), lookupKey_eraseKey_ne l h]

theorem eraseKey_of_lookup_none (l : List (String × α)) (k : String)
    (h : lookupKey l k = none) : eraseKey l k = l := by
  induction l with
  | nil => rfl
  | cons p t ih =>
    rw [lookupKey_cons] at h
    by_cases hp : p.1 = k
    · rw [if_pos hp] at h
      exact absurd h (by simp)
    · rw [if_neg hp] at h
      rw [eraseKey_cons, if_neg hp, ih h]

theorem eraseStr_cons (s : String) (t : List String) (k : String) :
    eraseStr (s :: t) k = if s = k then eraseStr t k else s :: eraseStr t k := rfl

theorem mem_eraseStr_ne {l : List String} {k n : String} (h : k ≠ n) :
    k ∈ eraseStr l n ↔ k ∈ l := by
  induction l with
  | nil => simp [eraseStr]
  | cons s t ih =>
    rw [eraseStr_cons]
    by_cases hs : s = n
    · rw [if_pos hs, ih]
      constructor
      · exact fun hk => List.mem_cons_of_mem _ hk
      · intro hk
        rcases List.mem_cons.1 hk with he | ht
        · exact absurd (he.trans hs) h
        · exact ht
    · rw [if_neg hs]
      simp only [List.mem_cons, ih]

theorem not_mem_eraseStr_self (l : List String) (k : String) : k ∉ eraseStr l k := by
  induction l with
  | nil => simp [eraseStr]
  | cons s t ih =>
    rw [eraseStr_cons]
    by_cases hs : s = k
    · rw [if_pos hs]
      exact ih
    · rw [if_neg hs]
      intro hk
      rcases List.mem_cons.1 hk with he | ht
      · exact hs he.symm
      · exact ih ht

theorem eraseStr_of_not_mem {l : List String} {k : String} (h : k ∉ l) : eraseStr l k = l := by
  induction l with
  | nil => rfl
  | cons s t ih =>
    rw [eraseStr_cons, if_neg (fun e => h (List.mem_cons.2 (Or.inl e.symm))),
      ih (fun ht => h (List.mem_cons_of_mem s ht))]

theorem eraseKey_idem (l : List (String × α)) (k : String) :
    eraseKey (eraseKey l k) k = eraseKey l k :=
  eraseKey_of_lookup_none _ _ (lookupKey_eraseKey_self l k)

theorem eraseStr_idem (l : List String) (k : String) :
    eraseStr (eraseStr l k) k = eraseStr l k :=
  eraseStr_of_not_mem (not_mem_eraseStr_self l k)

/-- A key is in the key list of a Go-map model iff lookup finds it. -/
theorem mem_keys_iff_lookup_isSome (l : List (String × α)) (k : String) :
    k ∈ l.map (·.1) ↔ (lookupKey l k).isSome := by
  induction l with
  | nil => simp [lookupKey]
  | cons p t ih =>
    rw [lookupKey_cons]
    by_cases h : p.1 = k
    · simp [h]
    · simp only [List.map_cons, List.mem_cons, if_neg h]
      rw [← ih]
      constructor
      · rintro (hk | hk)
        · exact absurd hk.symm h
        · exact hk
      · exact Or.inr

/-! ## Data model: mon status report and cluster state -/

/-- An entry of `status.MonMap.Mons` (a monitor reported by the quorum status). -/
structure MonMapEntry where
  name : String
  rank : Int
deriving DecidableEq

/-- The quorum status returned by `client.GetMonStatus`. -/
structure MonStatusReport where
  mons : List MonMapEntry
  quorum : List Int
deriving DecidableEq

/-- Modelled from the spec: the quorum status source reports which members are
currently in quorum; a reported monitor is in quorum when its rank occurs in
the quorum list (`monInQuorum`, declared outside `src/`). -/
def monInQuorum (m : MonMapEntry) (quorum : List Int) : Bool :=
  quorum.contains m.rank

/-- One value of `clusterInfo.Monitors` (`cephconfig.MonInfo`). -/
structure MonInfo where
  name : String
  address : String
  port : Nat
deriving DecidableEq

/-- The mutable cluster state touched by the health checker:
`clusterInfo.Monitors`, `mapping.Node`, `monTimeoutList`, `maxMonID`,
and the `HostNetwork` flag. -/
structure ClusterState where
  monitors : List (String × MonInfo)
  mapping : List (String × String)
  monTimeoutList : List (String × Nat)
  maxMonID : Nat
  hostNetwork : Bool
deriving DecidableEq

/-- The external resources a mon owns: its deployment, its service endpoint,
and its membership in the storage cluster's quorum. -/
structure World where
  deployments : List String
  services : List String
  quorumMembers : List String
deriving DecidableEq

/-- `MonOutTimeout` (600 seconds), in abstract time units. -/
def MonOutTimeout : Nat := 600

/-- Modelled from the spec: the resource name of a daemon's deployment and
service (`resourceName`, declared outside `src/`). -/
def resourceName (daemonName : String) : String := "rook-ceph-mon-" ++ daemonName

/-! ## Mon removal (`removeMon`) -/

/-- Outcomes of the external calls one `removeMon` invocation makes.  A delete
of a resource that exists can fail with a non-NotFound error; deleting an
absent resource reports NotFound, which the code treats as success. -/
structure RemovalOracle where
  deployDeleteFails : Bool
  quorumRemoveFails : Bool
  svcDeleteFails : Bool
  saveFails : Bool
  writeFails : Bool
deriving DecidableEq

/-- The oracle in which every external call of `removeMon` succeeds. -/
def okRemoval : RemovalOracle := ⟨false, false, false, false, false⟩

/-- `removeMon`: best-effort teardown of one mon.  Deployment and service
deletion treat NotFound as success; removal from quorum, saving the mon
config and rewriting the connection config are fatal on failure. -/
def removeMon (c : ClusterState) (w : World) (o : RemovalOracle) (daemonName : String) :
    Except String Unit × ClusterState × World :=
  let rn := resourceName daemonName
  if w.deployments.contains rn && o.deployDeleteFails then
    (.error ("failed to remove dead mon deployment " ++ rn), c, w)
  else
    let w1 : World := { w with deployments := eraseStr w.deployments rn }
    if o.quorumRemoveFails then
      (.error ("failed to remove mon " ++ daemonName ++ " from quorum"), c, w1)
    else
      let w2 : World := { w1 with quorumMembers := eraseStr w1.quorumMembers daemonName }
      let c1 : ClusterState :=
        { c with monitors := eraseKey c.monitors daemonName,
                 mapping := eraseKey c.mapping daemonName }
      if w2.services.contains rn && o.svcDeleteFails then
        (.error ("failed to remove dead mon service " ++ rn), c1, w2)
      else
        let w3 : World := { w2 with services := eraseStr w2.services rn }
        if o.saveFails then
          (.error ("failed to save mon config after failing over mon " ++ daemonName), c1, w3)
        else if o.writeFails then
          (.error ("failed to write connection config after failing over mon " ++ daemonName),
           c1, w3)
        else
          (.ok (), c1, w3)

theorem removeMon_monTimeoutList (c : ClusterState) (w : World) (o : RemovalOracle)
    (n : String) : (removeMon c w o n).2.1.monTimeoutList = c.monTimeoutList := by
  unfold removeMon
  dsimp only
  split
  · rfl
  · split
    · rfl
    · split
      · rfl
      · split
        · rfl
        · split <;> rfl

theorem removeMon_maxMonID (c : ClusterState) (w : World) (o : RemovalOracle)
    (n : String) : (removeMon c w o n).2.1.maxMonID = c.maxMonID := by
  unfold removeMon
  dsimp only
  split
  · rfl
  · split
    · rfl
    · split
      · rfl
      · split
        · rfl
        · split <;> rfl

theorem removeMon_monitors_of_lookup_none (c : ClusterState) (w : World) (o : RemovalOracle)
    {n : String} (h : lookupKey c.monitors n = none) :
    (removeMon c w o n).2.1.monitors = c.monitors := by
  unfold removeMon
  dsimp only
  split
  · rfl
  · split
    · rfl
    · rw [eraseKey_of_lookup_none _ _ h]
      split
      · rfl
      · split
        · rfl
        · split <;> rfl

/-! ## Mon failover (`failoverMon`) -/

/-- Outcomes of the external calls one `failoverMon` invocation makes.
`assignResult = none` means `assignMons` failed; `assignResult = some a`
means it succeeded, where `a` is the node address it recorded for the new
mon in the assignment map (`none` when it recorded nothing).
`createServiceResult` is the service IP, or `none` on failure. -/
structure FailoverOracle where
  assignResult : Option (Option String)
  createServiceResult : Option String
  startOk : Bool
  removal : RemovalOracle

/-- The oracle in which every external call of `failoverMon` succeeds. -/
def okFailover : FailoverOracle := ⟨some (some "node0"), some "10.0.0.1", true, okRemoval⟩

/-- Modelled from the spec: a fresh daemon identity derived from the numeric
identity counter (`newMonConfig`, declared outside `src/`). -/
def monNameFromId (id : Nat) : String := "rook-ceph-mon" ++ toString id

/-- Modelled from the spec: the default mon port used by `newMonConfig`
(declared outside `src/`). -/
def defaultMonPort : Nat := 6790

def exceptOk : Except String α → Bool
  | .ok _ => true
  | .error _ => false

/-- The provisioning phase of `failoverMon` for the new mon `newName`:
node assignment (`assignMons`), then public-IP resolution (assignment-map
lookup under host networking, `createService` otherwise).  Returns the
resolved IP or the first error, together with the (possibly mutated)
cluster state. -/
def failoverProvision (c : ClusterState) (o : FailoverOracle) (newName : String) :
    Except String String × ClusterState :=
  match o.assignResult with
  | none => (.error "failed to place new mon on a node", c)
  | some assigned =>
    let c1 : ClusterState :=
      match assigned with
      | some addr => { c with mapping := insertKey c.mapping newName addr }
      | none => c
    if c.hostNetwork then
      match lookupKey c1.mapping newName with
      | none => (.error ("mon " ++ newName ++ " doesn't exist in assignment map"), c1)
      | some addr => (.ok addr, c1)
    else
      match o.createServiceResult with
      | none => (.error "failed to create mon service", c1)
      | some ip => (.ok ip, c1)

/-- `failoverMon`: allocate identity `maxMonID + 1`, provision the new mon,
record it in `clusterInfo.Monitors`, start its deployment, increment
`maxMonID` only after a successful start, then remove the old mon. -/
def failoverMon (c : ClusterState) (w : World) (o : FailoverOracle) (name : String) :
    Except String Unit × ClusterState × World :=
  let newName := monNameFromId (c.maxMonID + 1)
  match failoverProvision c o newName with
  | (.error e, c1) => (.error e, c1, w)
  | (.ok ip, c1) =>
    let c2 : ClusterState :=
      { c1 with monitors := insertKey c1.monitors newName ⟨newName, ip, defaultMonPort⟩ }
    if !o.startOk then
      (.error ("failed to start new mon " ++ newName), c2, w)
    else
      let c3 : ClusterState := { c2 with maxMonID := c2.maxMonID + 1 }
      removeMon c3 w o.removal name

theorem failoverProvision_monTimeoutList (c : ClusterState) (o : FailoverOracle)
    (n : String) : (failoverProvision c o n).2.monTimeoutList = c.monTimeoutList := by
  unfold failoverProvision
  rcases o.assignResult with _ | assigned
  · rfl
  · rcases assigned with _ | addr <;> dsimp only <;> split <;> split <;> rfl

theorem failoverProvision_maxMonID (c : ClusterState) (o : FailoverOracle)
    (n : String) : (failoverProvision c o n).2.maxMonID = c.maxMonID := by
  unfold failoverProvision
  rcases o.assignResult with _ | assigned
  · rfl
  · rcases assigned with _ | addr <;> dsimp only <;> split <;> split <;> rfl

theorem failoverMon_monTimeoutList (c : ClusterState) (w : World) (o : FailoverOracle)
    (n : String) : (failoverMon c w o n).2.1.monTimeoutList = c.monTimeoutList := by
  unfold failoverMon
  dsimp only
  split
  · rename_i e c1 heq
    have := failoverProvision_monTimeoutList c o (monNameFromId (c.maxMonID + 1))
    rw [heq] at this
    exact this
  · rename_i ip c1 heq
    have h1 := failoverProvision_monTimeoutList c o (monNameFromId (c.maxMonID + 1))
    rw [heq] at h1
    split
    · exact h1
    · rw [removeMon_monTimeoutList]
      exact h1

/-- With every external call succeeding, `removeMon` returns success and
erases the daemon from the monitors map, the node assignment map, the
quorum, and its deployment and service resources. -/
theorem removeMon_ok_eq (c : ClusterState) (w : World) (n : String) :
    removeMon c w okRemoval n =
      (.ok (),
       { c with monitors := eraseKey c.monitors n, mapping := eraseKey c.mapping n },
       { deployments := eraseStr w.deployments (resourceName n),
         services := eraseStr w.services (resourceName n),
         quorumMembers := eraseStr w.quorumMembers n }) := by
  simp [removeMon, okRemoval]

/-- **C6**: `removeMon` is idempotent: with the external collaborators
succeeding (a "not found" result from deleting the deployment or the service
is treated as success), invoking it twice in succession on the same daemon
name yields success both times, and the second call leaves the state
produced by the first call unchanged. -/
theorem removeMon_idempotent (c : ClusterState) (w : World) (n : String) :
    (removeMon c w okRemoval n).1 = .ok () ∧
    removeMon (removeMon c w okRemoval n).2.1 (removeMon c w okRemoval n).2.2 okRemoval n
      = ((.ok () : Except String Unit), (removeMon c w okRemoval n).2) := by
  rw [removeMon_ok_eq c w n]
  refine ⟨rfl, ?_⟩
  rw [removeMon_ok_eq]
  simp [eraseKey_idem, eraseStr_idem]

/-- **C3**: every failover allocates identity `maxMonID + 1` for the
replacement daemon, and `maxMonID` is incremented exactly when provisioning
(placement, endpoint resolution) and the deployment start succeed; if
placement, endpoint creation, or deployment start fails, `maxMonID` is
unchanged, and it never decreases. -/
theorem failoverMon_maxMonID_increment (c : ClusterState) (w : World) (o : FailoverOracle)
    (name : String) :
    ((failoverMon c w o name).2.1.maxMonID =
      if exceptOk (failoverProvision c o (monNameFromId (c.maxMonID + 1))).1 && o.startOk
      then c.maxMonID + 1 else c.maxMonID) ∧
    (o.assignResult = none → (failoverMon c w o name).2.1.maxMonID = c.maxMonID) ∧
    (c.hostNetwork = false → o.createServiceResult = none →
      (failoverMon c w o name).2.1.maxMonID = c.maxMonID) ∧
    (o.startOk = false → (failoverMon c w o name).2.1.maxMonID = c.maxMonID) ∧
    (o.startOk = false →
      exceptOk (failoverProvision c o (monNameFromId (c.maxMonID + 1))).1 = true →
      (lookupKey (failoverMon c w o name).2.1.monitors
        (monNameFromId (c.maxMonID + 1))).isSome = true) ∧
    c.maxMonID ≤ (failoverMon c w o name).2.1.maxMonID := by
  have hprov := failoverProvision_maxMonID c o (monNameFromId (c.maxMonID + 1))
  have hmain : (failoverMon c w o name).2.1.maxMonID =
      if exceptOk (failoverProvision c o (monNameFromId (c.maxMonID + 1))).1 && o.startOk
      then c.maxMonID + 1 else c.maxMonID := by
    unfold failoverMon
    dsimp only
    rcases hp : failoverProvision c o (monNameFromId (c.maxMonID + 1)) with ⟨res, c1⟩
    rw [hp] at hprov
    dsimp only at hprov
    rcases res with e | ip
    · simp [exceptOk, hprov]
    · dsimp only
      rcases hs : o.startOk with _ | _
      · simp [exceptOk, hprov, hs]
      · simp [exceptOk, hs, removeMon_maxMonID, hprov]
  refine ⟨hmain, ?_, ?_, ?_, ?_, ?_⟩
  · intro ha
    rw [hmain]
    simp [failoverProvision, ha, exceptOk]
  · intro hh hcs
    rw [hmain]
    rcases ha : o.assignResult with _ | a
    · simp [failoverProvision, ha, exceptOk]
    · rcases a with _ | addr <;> simp [failoverProvision, ha, hh, hcs, exceptOk]
  · intro hs
    rw [hmain]
    simp [hs]
  · intro hs hok
    unfold failoverMon
    dsimp only
    rcases hp : failoverProvision c o (monNameFromId (c.maxMonID + 1)) with ⟨res, c1⟩
    rw [hp] at hok
    rcases res with e | ip
    · simp [exceptOk] at hok
    · simp [hs, lookupKey_insertKey_self]
  · rw [hmain]
    split <;> omega

/-- Witness for `failoverMon_maxMonID_increment`: on a concrete cluster with
`maxMonID = 4`, a fully successful failover yields `maxMonID = 5`, and a
failover whose deployment start fails leaves `maxMonID = 4`. -/
theorem failoverMon_maxMonID_increment_witness :
    ((exceptOk (failoverProvision
        ⟨[("a", ⟨"a", "10.1.1.1", 6790⟩)], [], [], 4, false⟩ okFailover
        (monNameFromId 5)).1 && okFailover.startOk) = true ∧
      (failoverMon ⟨[("a", ⟨"a", "10.1.1.1", 6790⟩)], [], [], 4, false⟩
        ⟨["rook-ceph-mon-a"], ["rook-ceph-mon-a"], ["a"]⟩ okFailover "a").2.1.maxMonID = 5) ∧
    (failoverMon ⟨[("a", ⟨"a", "10.1.1.1", 6790⟩)], [], [], 4, false⟩
        ⟨["rook-ceph-mon-a"], ["rook-ceph-mon-a"], ["a"]⟩
        ⟨some (some "node1"), some "10.0.0.9", false, okRemoval⟩ "a").2.1.maxMonID = 4 := by
  constructor
  · constructor
    · decide
    · have h := (failoverMon_maxMonID_increment
        ⟨[("a", ⟨"a", "10.1.1.1", 6790⟩)], [], [], 4, false⟩
        ⟨["rook-ceph-mon-a"], ["rook-ceph-mon-a"], ["a"]⟩ okFailover "a").1
      rw [h]
      decide
  · exact (failoverMon_maxMonID_increment
      ⟨[("a", ⟨"a", "10.1.1.1", 6790⟩)], [], [], 4, false⟩
      ⟨["rook-ceph-mon-a"], ["rook-ceph-mon-a"], ["a"]⟩
      ⟨some (some "node1"), some "10.0.0.9", false, okRemoval⟩ "a").2.2.2.1 rfl

/-! ## The health check (`checkHealth`) -/

/-- The remedial actions a `checkHealth` cycle can perform, in order:
* `removeStaleUnknown`: the immediate `removeMon` of a reported daemon that
  is not in `clusterInfo.Monitors` but is in quorum while the mon map is
  larger than the desired count;
* `failOutOfQuorum`: the `failMon` dispatch for a reported daemon out of
  quorum past its timeout (the recorded count is `len(status.MonMap.Mons)`);
* `failNotFound`: the `failMon` dispatch for a daemon of
  `clusterInfo.Monitors` absent from the report (the recorded count is
  `len(c.clusterInfo.Monitors)`);
* `scaleUp`: the `startMons` call;
* `scaleDownRemove`: the `removeMon` of the first reported daemon when the
  desired count has decreased. -/
inductive Action where
  | removeStaleUnknown (name : String)
  | failOutOfQuorum (monCount : Nat) (name : String)
  | failNotFound (monCount : Nat) (name : String)
  | scaleUp (current : Nat) (desired : Int)
  | scaleDownRemove (name : String)
deriving DecidableEq

/-- Outcomes of the external calls a `checkHealth` cycle can make: the
removal oracle for each daemon name, the failover oracle, whether
`startMons` fails, and the current time (`time.Now()` / `time.Since`). -/
structure HealthOracle where
  removal : String → RemovalOracle
  failover : FailoverOracle
  startMonsFails : Bool
  now : Nat

/-- `failMon`: remove the mon when there are more mons than desired,
otherwise fail it over to a new mon.  Errors are logged, not propagated. -/
def failMon (c : ClusterState) (w : World) (o : HealthOracle) (monCount : Nat)
    (desired : Int) (name : String) : ClusterState × World :=
  if (monCount : Int) > desired then (removeMon c w (o.removal name) name).2
  else (failoverMon c w o.failover name).2

/-- The running state of the scan over `status.MonMap.Mons`:
the remaining `monsNotFound` names, the cluster state and world, the
`allMonsInQuorum` flag, and the action trace so far. -/
structure ScanSt where
  notFound : List String
  cluster : ClusterState
  world : World
  allInQuorum : Bool
  trace : List Action

/-- Membership bookkeeping for one reported mon (health.go lines 99-115):
a mon known to `clusterInfo` is pruned from `monsNotFound`; an unknown mon
is removed immediately when it is in quorum and the mon map is larger than
the desired count (the `removeMon` error is ignored). -/
def scanMembership (desired : Int) (mlen : Nat) (o : HealthOracle) (m : MonMapEntry)
    (inQ : Bool) (s : ScanSt) : ScanSt :=
  if m.name ∈ s.notFound then
    { s with notFound := eraseStr s.notFound m.name }
  else if inQ = true ∧ (mlen : Int) > desired then
    let r := removeMon s.cluster s.world (o.removal m.name) m.name
    { s with cluster := r.2.1, world := r.2.2,
             trace := s.trace ++ [Action.removeStaleUnknown m.name] }
  else s

/-- Quorum bookkeeping for one reported mon (health.go lines 117-145):
a mon in quorum has its timeout entry deleted; a mon out of quorum gets a
timeout entry at the current time if it has none, and once the entry is
older than `MonOutTimeout` the mon is dispatched to `failMon` and the cycle
returns (`Sum.inr`). -/
def scanQuorum (q : List Int) (desired : Int) (mlen : Nat) (o : HealthOracle)
    (m : MonMapEntry) (s : ScanSt) : ScanSt ⊕ ScanSt :=
  if monInQuorum m q then
    .inl { s with cluster :=
      { s.cluster with monTimeoutList := eraseKey s.cluster.monTimeoutList m.name } }
  else if (lookupKey s.cluster.monTimeoutList m.name).isSome then
    -- an entry already exists: compare its age against the timeout
    if o.now - ((lookupKey s.cluster.monTimeoutList m.name).getD o.now) ≤ MonOutTimeout then
      .inl { s with allInQuorum := false }
    else
      .inr { s with
        allInQuorum := false,
        cluster := (failMon s.cluster s.world o mlen desired m.name).1,
        world := (failMon s.cluster s.world o mlen desired m.name).2,
        trace := s.trace ++ [Action.failOutOfQuorum mlen m.name] }
  else
    -- no entry yet: record the current time; the fresh entry has age
    -- `o.now - o.now = 0 ≤ MonOutTimeout`, so this cycle always waits
    .inl { s with
      allInQuorum := false,
      cluster := { s.cluster with
        monTimeoutList := insertKey s.cluster.monTimeoutList m.name o.now } }

/-- One iteration of the loop over `status.MonMap.Mons`. -/
def scanStep (q : List Int) (desired : Int) (mlen : Nat) (o : HealthOracle)
    (m : MonMapEntry) (s : ScanSt) : ScanSt ⊕ ScanSt :=
  scanQuorum q desired mlen o m (scanMembership desired mlen o m (monInQuorum m q) s)

/-- The loop over `status.MonMap.Mons`.  `Sum.inl` means the whole list was
scanned; `Sum.inr` means the cycle returned early after a `failMon`
dispatch ("only deal with one unhealthy mon per health check"). -/
def scanMons (q : List Int) (desired : Int) (mlen : Nat) (o : HealthOracle) :
    List MonMapEntry → ScanSt → ScanSt ⊕ ScanSt
  | [], s => .inl s
  | m :: rest, s =>
    match scanStep q desired mlen o m s with
    | .inl s1 => scanMons q desired mlen o rest s1
    | .inr s1 => .inr s1

/-- The outcome of one `checkHealth` cycle: the returned error (if any), the
final cluster state and world, the trace of remedial actions performed, and
whether the cycle returned early from the mon-map scan. -/
structure CheckResult where
  ret : Except String Unit
  cluster : ClusterState
  world : World
  trace : List Action
  earlyReturn : Bool

/-- `checkHealth` on a successfully fetched quorum status: scan the reported
mons, then fail over the members of `clusterInfo.Monitors` missing from the
report (one per cycle), then scale up when fewer mons exist than desired,
then scale down (refusing to go from 2 to below 2) when more are in quorum
than desired.  `desired` is the cycle's snapshot of `c.spec.Mon.Count`. -/
def checkHealth (c : ClusterState) (w : World) (desired : Int) (st : MonStatusReport)
    (o : HealthOracle) : CheckResult :=
  let s0 : ScanSt := ⟨c.monitors.map (·.1), c, w, true, []⟩
  match scanMons st.quorum desired st.mons.length o st.mons s0 with
  | .inr s => ⟨.ok (), s.cluster, s.world, s.trace, true⟩
  | .inl s =>
    match s.notFound with
    | nm :: _ =>
      let r := failMon s.cluster s.world o s.cluster.monitors.length desired nm
      ⟨.ok (), r.1, r.2, s.trace ++ [Action.failNotFound s.cluster.monitors.length nm], false⟩
    | [] =>
      if (st.mons.length : Int) < desired then
        ⟨if o.startMonsFails then .error "failed to start mons" else .ok (),
         s.cluster, s.world, s.trace ++ [Action.scaleUp st.mons.length desired], false⟩
      else if s.allInQuorum = true ∧ (st.mons.length : Int) > desired then
        if desired < 2 ∧ st.mons.length = 2 then
          ⟨.ok (), s.cluster, s.world, s.trace, false⟩
        else
          match st.mons with
          | [] =>
            -- Go would panic indexing an empty slice here; unreachable for desired ≥ 0
            ⟨.error "index out of range", s.cluster, s.world, s.trace, false⟩
          | m0 :: _ =>
            let r := removeMon s.cluster s.world (o.removal m0.name) m0.name
            ⟨r.1, r.2.1, r.2.2, s.trace ++ [Action.scaleDownRemove m0.name], false⟩
      else ⟨.ok (), s.cluster, s.world, s.trace, false⟩

/-- `checkHealth` including the quorum-status query: a failed
`client.GetMonStatus` aborts the cycle with an error, before any state is
read or mutated. -/
def checkHealthFromStatus (c : ClusterState) (w : World) (desired : Int)
    (statusResult : Option MonStatusReport) (o : HealthOracle) : CheckResult :=
  match statusResult with
  | none => ⟨.error "failed to get mon status", c, w, [], false⟩
  | some st => checkHealth c w desired st o

/-! ## Lemmas about the scan -/

/-- The actions bounded by the one-remediation-per-cycle rule: everything
except the immediate removals of stale unknown mons, which do not return
from the cycle. -/
def isDispatch : Action → Bool
  | .removeStaleUnknown _ => false
  | _ => true

/-- Number of dispatched remediations in a trace. -/
def dlen (tr : List Action) : Nat := (tr.filter isDispatch).length

theorem dlen_append (tr tr2 : List Action) : dlen (tr ++ tr2) = dlen tr + dlen tr2 := by
  unfold dlen
  rw [List.filter_append, List.length_append]

theorem failMon_monTimeoutList (c : ClusterState) (w : World) (o : HealthOracle)
    (cnt : Nat) (d : Int) (n : String) :
    (failMon c w o cnt d n).1.monTimeoutList = c.monTimeoutList := by
  unfold failMon
  split
  · rw [removeMon_monTimeoutList]
  · rw [failoverMon_monTimeoutList]

theorem scanMembership_trace (d : Int) (mlen : Nat) (o : HealthOracle) (m : MonMapEntry)
    (inQ : Bool) (s : ScanSt) :
    (scanMembership d mlen o m inQ s).trace =
      if m.name ∉ s.notFound ∧ inQ = true ∧ (mlen : Int) > d
      then s.trace ++ [Action.removeStaleUnknown m.name] else s.trace := by
  by_cases h1 : m.name ∈ s.notFound
  · simp [scanMembership, h1]
  · by_cases h2 : inQ = true ∧ (mlen : Int) > d
    · simp [scanMembership, h1, h2]
    · simp [scanMembership, h1, h2]

theorem scanMembership_notFound (d : Int) (mlen : Nat) (o : HealthOracle) (m : MonMapEntry)
    (inQ : Bool) (s : ScanSt) :
    (scanMembership d mlen o m inQ s).notFound =
      if m.name ∈ s.notFound then eraseStr s.notFound m.name else s.notFound := by
  by_cases h1 : m.name ∈ s.notFound
  · simp [scanMembership, h1]
  · by_cases h2 : inQ = true ∧ (mlen : Int) > d
    · simp [scanMembership, h1, h2]
    · simp [scanMembership, h1, h2]

theorem scanMembership_monTimeoutList (d : Int) (mlen : Nat) (o : HealthOracle)
    (m : MonMapEntry) (inQ : Bool) (s : ScanSt) :
    (scanMembership d mlen o m inQ s).cluster.monTimeoutList
      = s.cluster.monTimeoutList := by
  by_cases h1 : m.name ∈ s.notFound
  · simp [scanMembership, h1]
  · by_cases h2 : inQ = true ∧ (mlen : Int) > d
    · simp [scanMembership, h1, h2, removeMon_monTimeoutList]
    · simp [scanMembership, h1, h2]

theorem scanMembership_allInQuorum (d : Int) (mlen : Nat) (o : HealthOracle)
    (m : MonMapEntry) (inQ : Bool) (s : ScanSt) :
    (scanMembership d mlen o m inQ s).allInQuorum = s.allInQuorum := by
  by_cases h1 : m.name ∈ s.notFound
  · simp [scanMembership, h1]
  · by_cases h2 : inQ = true ∧ (mlen : Int) > d
    · simp [scanMembership, h1, h2]
    · simp [scanMembership, h1, h2]

theorem scanMembership_monitors (d : Int) (mlen : Nat) (o : HealthOracle)
    (m : MonMapEntry) (inQ : Bool) (s : ScanSt)
    (h : (lookupKey s.cluster.monitors m.name).isSome → m.name ∈ s.notFound) :
    (scanMembership d mlen o m inQ s).cluster.monitors = s.cluster.monitors := by
  by_cases h1 : m.name ∈ s.notFound
  · simp [scanMembership, h1]
  · by_cases h2 : inQ = true ∧ (mlen : Int) > d
    · have hnone : lookupKey s.cluster.monitors m.name = none := by
        rcases hl : lookupKey s.cluster.monitors m.name with _ | v
        · rfl
        · exact absurd (h (by rw [hl]; rfl)) h1
      simp [scanMembership, h1, h2, removeMon_monitors_of_lookup_none _ _ _ hnone]
    · simp [scanMembership, h1, h2]

theorem scanQuorum_inQ {q : List Int} {m : MonMapEntry} (d : Int) (mlen : Nat)
    (o : HealthOracle) (s : ScanSt) (h : monInQuorum m q = true) :
    scanQuorum q d mlen o m s =
      .inl { s with cluster :=
        { s.cluster with monTimeoutList := eraseKey s.cluster.monTimeoutList m.name } } := by
  unfold scanQuorum
  rw [if_pos h]

theorem scanQuorum_fresh {q : List Int} {m : MonMapEntry} (d : Int) (mlen : Nat)
    (o : HealthOracle) {s : ScanSt} (h : monInQuorum m q = false)
    (ht : lookupKey s.cluster.monTimeoutList m.name = none) :
    scanQuorum q d mlen o m s =
      .inl { s with
        allInQuorum := false,
        cluster := { s.cluster with
          monTimeoutList := insertKey s.cluster.monTimeoutList m.name o.now } } := by
  unfold scanQuorum
  rw [if_neg (by simp [h]), if_neg (by simp [ht])]

theorem scanQuorum_wait {q : List Int} {m : MonMapEntry} (d : Int) (mlen : Nat)
    (o : HealthOracle) {s : ScanSt} {t0 : Nat} (h : monInQuorum m q = false)
    (ht : lookupKey s.cluster.monTimeoutList m.name = some t0)
    (hw : o.now - t0 ≤ MonOutTimeout) :
    scanQuorum q d mlen o m s = .inl { s with allInQuorum := false } := by
  unfold scanQuorum
  rw [if_neg (by simp [h]), if_pos (by simp [ht]), if_pos (by rw [ht]; simpa using hw)]

theorem scanQuorum_dispatch {q : List Int} {m : MonMapEntry} (d : Int) (mlen : Nat)
    (o : HealthOracle) {s : ScanSt} {t0 : Nat} (h : monInQuorum m q = false)
    (ht : lookupKey s.cluster.monTimeoutList m.name = some t0)
    (hw : ¬ o.now - t0 ≤ MonOutTimeout) :
    scanQuorum q d mlen o m s =
      .inr { s with
        allInQuorum := false,
        cluster := (failMon s.cluster s.world o mlen d m.name).1,
        world := (failMon s.cluster s.world o mlen d m.name).2,
        trace := s.trace ++ [Action.failOutOfQuorum mlen m.name] } := by
  unfold scanQuorum
  rw [if_neg (by simp [h]), if_pos (by simp [ht]), if_neg (by rw [ht]; simpa using hw)]

/-- Full case analysis of one scan step, phrased through the membership-phase
result `scanMembership d mlen o m (monInQuorum m q) s`: a mon in quorum has
its timeout entry cleared; a mon out of quorum gets a fresh entry, waits on
an entry within the timeout, or is dispatched to `failMon` past it. -/
theorem scanStep_inv (q : List Int) (d : Int) (mlen : Nat) (o : HealthOracle)
    (m : MonMapEntry) (s : ScanSt) :
    (monInQuorum m q = true ∧
      scanStep q d mlen o m s =
        .inl { scanMembership d mlen o m (monInQuorum m q) s with
          cluster := { (scanMembership d mlen o m (monInQuorum m q) s).cluster with
            monTimeoutList := eraseKey s.cluster.monTimeoutList m.name } }) ∨
    (monInQuorum m q = false ∧ lookupKey s.cluster.monTimeoutList m.name = none ∧
      scanStep q d mlen o m s =
        .inl { scanMembership d mlen o m (monInQuorum m q) s with
          allInQuorum := false,
          cluster := { (scanMembership d mlen o m (monInQuorum m q) s).cluster with
            monTimeoutList := insertKey s.cluster.monTimeoutList m.name o.now } }) ∨
    (∃ t0, monInQuorum m q = false ∧
      lookupKey s.cluster.monTimeoutList m.name = some t0 ∧
      o.now - t0 ≤ MonOutTimeout ∧
      scanStep q d mlen o m s =
        .inl { scanMembership d mlen o m (monInQuorum m q) s with
          allInQuorum := false }) ∨
    (∃ t0, monInQuorum m q = false ∧
      lookupKey s.cluster.monTimeoutList m.name = some t0 ∧
      ¬ o.now - t0 ≤ MonOutTimeout ∧
      scanStep q d mlen o m s =
        .inr { scanMembership d mlen o m (monInQuorum m q) s with
          allInQuorum := false,
          cluster := (failMon (scanMembership d mlen o m (monInQuorum m q) s).cluster
            (scanMembership d mlen o m (monInQuorum m q) s).world o mlen d m.name).1,
          world := (failMon (scanMembership d mlen o m (monInQuorum m q) s).cluster
            (scanMembership d mlen o m (monInQuorum m q) s).world o mlen d m.name).2,
          trace := (scanMembership d mlen o m (monInQuorum m q) s).trace
            ++ [Action.failOutOfQuorum mlen m.name] }) := by
  cases hq : monInQuorum m q with
  | true =>
    left
    refine ⟨rfl, ?_⟩
    unfold scanStep
    rw [hq, scanQuorum_inQ d mlen o _ hq, scanMembership_monTimeoutList]
  | false =>
    rcases hl : lookupKey s.cluster.monTimeoutList m.name with _ | t0
    · right; left
      refine ⟨rfl, rfl, ?_⟩
      unfold scanStep
      rw [hq, scanQuorum_fresh d mlen o hq
        (by rw [scanMembership_monTimeoutList]; exact hl), scanMembership_monTimeoutList]
    · by_cases hw : o.now - t0 ≤ MonOutTimeout
      · right; right; left
        refine ⟨t0, rfl, rfl, hw, ?_⟩
        unfold scanStep
        rw [hq, scanQuorum_wait d mlen o hq
          (by rw [scanMembership_monTimeoutList]; exact hl) hw]
      · right; right; right
        refine ⟨t0, rfl, rfl, hw, ?_⟩
        unfold scanStep
        rw [hq, scanQuorum_dispatch d mlen o hq
          (by rw [scanMembership_monTimeoutList]; exact hl) hw]

/-- The state carried by either outcome of a scan step or scan. -/
def scanOut : ScanSt ⊕ ScanSt → ScanSt
  | .inl s => s
  | .inr s => s

theorem scanStep_notFound (q : List Int) (d : Int) (mlen : Nat) (o : HealthOracle)
    (m : MonMapEntry) (s : ScanSt) :
    (scanOut (scanStep q d mlen o m s)).notFound
      = (scanMembership d mlen o m (monInQuorum m q) s).notFound := by
  rcases scanStep_inv q d mlen o m s with ⟨_, he⟩ | ⟨_, _, he⟩ | ⟨t0, _, _, _, he⟩ |
    ⟨t0, _, _, _, he⟩ <;> (rw [he]; rfl)

theorem scanStep_inl_trace (q : List Int) (d : Int) (mlen : Nat) (o : HealthOracle)
    (m : MonMapEntry) {s s1 : ScanSt} (h : scanStep q d mlen o m s = .inl s1) :
    s1.trace = (scanMembership d mlen o m (monInQuorum m q) s).trace := by
  rcases scanStep_inv q d mlen o m s with ⟨_, he⟩ | ⟨_, _, he⟩ | ⟨t0, _, _, _, he⟩ |
    ⟨t0, _, _, _, he⟩ <;> rw [he] at h <;> cases h <;> rfl

theorem scanStep_inr_trace (q : List Int) (d : Int) (mlen : Nat) (o : HealthOracle)
    (m : MonMapEntry) {s s1 : ScanSt} (h : scanStep q d mlen o m s = .inr s1) :
    s1.trace = (scanMembership d mlen o m (monInQuorum m q) s).trace
      ++ [Action.failOutOfQuorum mlen m.name] := by
  rcases scanStep_inv q d mlen o m s with ⟨_, he⟩ | ⟨_, _, he⟩ | ⟨t0, _, _, _, he⟩ |
    ⟨t0, _, _, _, he⟩ <;> rw [he] at h <;> cases h <;> rfl

theorem dlen_stale (nm : String) : dlen [Action.removeStaleUnknown nm] = 0 := rfl

theorem dlen_scanMembership (d : Int) (mlen : Nat) (o : HealthOracle) (m : MonMapEntry)
    (inQ : Bool) (s : ScanSt) :
    dlen (scanMembership d mlen o m inQ s).trace = dlen s.trace := by
  rw [scanMembership_trace]
  split
  · rw [dlen_append, dlen_stale, Nat.add_zero]
  · rfl

theorem scanStep_inl_dlen (q : List Int) (d : Int) (mlen : Nat) (o : HealthOracle)
    (m : MonMapEntry) {s s1 : ScanSt} (h : scanStep q d mlen o m s = .inl s1) :
    dlen s1.trace = dlen s.trace := by
  rw [scanStep_inl_trace q d mlen o m h, dlen_scanMembership]

theorem scanStep_inr_dlen (q : List Int) (d : Int) (mlen : Nat) (o : HealthOracle)
    (m : MonMapEntry) {s s1 : ScanSt} (h : scanStep q d mlen o m s = .inr s1) :
    dlen s1.trace = dlen s.trace + 1 := by
  rw [scanStep_inr_trace q d mlen o m h, dlen_append, dlen_scanMembership]
  rfl

theorem scanStep_trace_mono (q : List Int) (d : Int) (mlen : Nat) (o : HealthOracle)
    (m : MonMapEntry) (s : ScanSt) {a : Action} (ha : a ∈ s.trace) :
    a ∈ (scanOut (scanStep q d mlen o m s)).trace := by
  have hm : a ∈ (scanMembership d mlen o m (monInQuorum m q) s).trace := by
    rw [scanMembership_trace]
    split
    · exact List.mem_append_left _ ha
    · exact ha
  rcases hst : scanStep q d mlen o m s with s1 | s1
  · rw [show scanOut (Sum.inl s1) = s1 from rfl, scanStep_inl_trace q d mlen o m hst]
    exact hm
  · rw [show scanOut (Sum.inr s1) = s1 from rfl, scanStep_inr_trace q d mlen o m hst]
    exact List.mem_append_left _ hm

theorem scanStep_trace_new (q : List Int) (d : Int) (mlen : Nat) (o : HealthOracle)
    (m : MonMapEntry) (s : ScanSt) {a : Action}
    (ha : a ∈ (scanOut (scanStep q d mlen o m s)).trace) :
    a ∈ s.trace ∨ a = Action.removeStaleUnknown m.name
      ∨ a = Action.failOutOfQuorum mlen m.name := by
  have hmem : ∀ b : Action, b ∈ (scanMembership d mlen o m (monInQuorum m q) s).trace →
      b ∈ s.trace ∨ b = Action.removeStaleUnknown m.name := by
    intro b hb
    rw [scanMembership_trace] at hb
    by_cases hc : m.name ∉ s.notFound ∧ monInQuorum m q = true ∧ (mlen : Int) > d
    · rw [if_pos hc] at hb
      rcases List.mem_append.1 hb with h1 | h1
      · exact Or.inl h1
      · exact Or.inr (by simpa using h1)
    · rw [if_neg hc] at hb
      exact Or.inl hb
  rcases hst : scanStep q d mlen o m s with s1 | s1 <;> rw [hst] at ha
  · rw [show scanOut (Sum.inl s1) = s1 from rfl] at ha
    rw [scanStep_inl_trace q d mlen o m hst] at ha
    rcases hmem a ha with h | h
    · exact Or.inl h
    · exact Or.inr (Or.inl h)
  · rw [show scanOut (Sum.inr s1) = s1 from rfl] at ha
    rw [scanStep_inr_trace q d mlen o m hst] at ha
    rcases List.mem_append.1 ha with h1 | h1
    · rcases hmem a h1 with h | h
      · exact Or.inl h
      · exact Or.inr (Or.inl h)
    · exact Or.inr (Or.inr (by simpa using h1))

theorem scanStep_tracker_frame (q : List Int) (d : Int) (mlen : Nat) (o : HealthOracle)
    (m : MonMapEntry) (s : ScanSt) {k : String} (hk : k ≠ m.name) :
    lookupKey (scanOut (scanStep q d mlen o m s)).cluster.monTimeoutList k
      = lookupKey s.cluster.monTimeoutList k := by
  rcases scanStep_inv q d mlen o m s with ⟨_, he⟩ | ⟨_, _, he⟩ | ⟨t0, _, _, _, he⟩ |
    ⟨t0, _, _, _, he⟩ <;> rw [he]
  · exact lookupKey_eraseKey_ne _ hk
  · exact lookupKey_insertKey_ne _ hk _
  · dsimp only [scanOut]
    rw [scanMembership_monTimeoutList]
  · dsimp only [scanOut]
    rw [failMon_monTimeoutList, scanMembership_monTimeoutList]

theorem scanStep_inl_allQ (q : List Int) (d : Int) (mlen : Nat) (o : HealthOracle)
    (m : MonMapEntry) {s s1 : ScanSt} (h : scanStep q d mlen o m s = .inl s1)
    (ha : s1.allInQuorum = true) : monInQuorum m q = true ∧ s.allInQuorum = true := by
  rcases scanStep_inv q d mlen o m s with ⟨hq, he⟩ | ⟨hq, _, he⟩ | ⟨t0, hq, _, _, he⟩ |
    ⟨t0, hq, _, _, he⟩ <;> rw [he] at h <;> cases h
  · refine ⟨hq, ?_⟩
    rw [show ({ scanMembership d mlen o m (monInQuorum m q) s with
        cluster := { (scanMembership d mlen o m (monInQuorum m q) s).cluster with
          monTimeoutList := eraseKey s.cluster.monTimeoutList m.name } } : ScanSt).allInQuorum
      = (scanMembership d mlen o m (monInQuorum m q) s).allInQuorum from rfl,
      scanMembership_allInQuorum] at ha
    exact ha
  · exact absurd ha (by simp)
  · exact absurd ha (by simp)

theorem scanStep_inl_monitors (q : List Int) (d : Int) (mlen : Nat) (o : HealthOracle)
    (m : MonMapEntry) {s s1 : ScanSt}
    (hinv : (lookupKey s.cluster.monitors m.name).isSome = true → m.name ∈ s.notFound)
    (h : scanStep q d mlen o m s = .inl s1) :
    s1.cluster.monitors = s.cluster.monitors := by
  rcases scanStep_inv q d mlen o m s with ⟨hq, he⟩ | ⟨hq, _, he⟩ | ⟨t0, hq, _, _, he⟩ |
    ⟨t0, hq, _, _, he⟩ <;> rw [he] at h <;> cases h <;>
    exact scanMembership_monitors d mlen o m (monInQuorum m q) s hinv

theorem scanMons_inl_dlen (q : List Int) (d : Int) (mlen : Nat) (o : HealthOracle) :
    ∀ (mons : List MonMapEntry) (s s1 : ScanSt),
      scanMons q d mlen o mons s = .inl s1 → dlen s1.trace = dlen s.trace := by
  intro mons
  induction mons with
  | nil =>
    intro s s1 h
    cases h
    rfl
  | cons m rest ih =>
    intro s s1 h
    unfold scanMons at h
    rcases hst : scanStep q d mlen o m s with s2 | s2 <;> rw [hst] at h
    · rw [ih s2 s1 h, scanStep_inl_dlen q d mlen o m hst]
    · cases h

theorem scanMons_inr_dlen (q : List Int) (d : Int) (mlen : Nat) (o : HealthOracle) :
    ∀ (mons : List MonMapEntry) (s s1 : ScanSt),
      scanMons q d mlen o mons s = .inr s1 → dlen s1.trace = dlen s.trace + 1 := by
  intro mons
  induction mons with
  | nil =>
    intro s s1 h
    cases h
  | cons m rest ih =>
    intro s s1 h
    unfold scanMons at h
    rcases hst : scanStep q d mlen o m s with s2 | s2 <;> rw [hst] at h
    · rw [ih s2 s1 h, scanStep_inl_dlen q d mlen o m hst]
    · cases h
      rw [scanStep_inr_dlen q d mlen o m hst]

theorem scanMons_trace_mono (q : List Int) (d : Int) (mlen : Nat) (o : HealthOracle) :
    ∀ (mons : List MonMapEntry) (s : ScanSt) {a : Action}, a ∈ s.trace →
      a ∈ (scanOut (scanMons q d mlen o mons s)).trace := by
  intro mons
  induction mons with
  | nil =>
    intro s a ha
    exact ha
  | cons m rest ih =>
    intro s a ha
    unfold scanMons
    have hstep := scanStep_trace_mono q d mlen o m s ha
    rcases hst : scanStep q d mlen o m s with s2 | s2 <;> rw [hst] at hstep
    · exact ih s2 hstep
    · exact hstep

theorem scanMons_trace_new (q : List Int) (d : Int) (mlen : Nat) (o : HealthOracle) :
    ∀ (mons : List MonMapEntry) (s : ScanSt) {a : Action},
      a ∈ (scanOut (scanMons q d mlen o mons s)).trace →
      a ∈ s.trace ∨ ∃ m ∈ mons, a = Action.removeStaleUnknown m.name
        ∨ a = Action.failOutOfQuorum mlen m.name := by
  intro mons
  induction mons with
  | nil =>
    intro s a ha
    exact Or.inl ha
  | cons m rest ih =>
    intro s a ha
    unfold scanMons at ha
    rcases hst : scanStep q d mlen o m s with s2 | s2 <;> rw [hst] at ha
    · rcases ih s2 ha with h | ⟨m', hm', hcase⟩
      · have := scanStep_trace_new q d mlen o m s (by rw [hst]; exact h)
        rcases this with h1 | h1 | h1
        · exact Or.inl h1
        · exact Or.inr ⟨m, List.mem_cons_self m rest, Or.inl h1⟩
        · exact Or.inr ⟨m, List.mem_cons_self m rest, Or.inr h1⟩
      · exact Or.inr ⟨m', List.mem_cons_of_mem m hm', hcase⟩
    · have := scanStep_trace_new q d mlen o m s (by rw [hst]; exact ha)
      rcases this with h1 | h1 | h1
      · exact Or.inl h1
      · exact Or.inr ⟨m, List.mem_cons_self m rest, Or.inl h1⟩
      · exact Or.inr ⟨m, List.mem_cons_self m rest, Or.inr h1⟩

theorem scanStep_inl_allQ_false (q : List Int) (d : Int) (mlen : Nat) (o : HealthOracle)
    (m : MonMapEntry) {s s1 : ScanSt} (h : scanStep q d mlen o m s = .inl s1)
    (ha : s.allInQuorum = false) : s1.allInQuorum = false := by
  by_cases h1 : s1.allInQuorum = true
  · exact absurd (scanStep_inl_allQ q d mlen o m h h1).2 (by rw [ha]; simp)
  · simpa using h1

theorem scanMons_inl_allQ_false (q : List Int) (d : Int) (mlen : Nat) (o : HealthOracle) :
    ∀ (mons : List MonMapEntry) (s s1 : ScanSt),
      scanMons q d mlen o mons s = .inl s1 → s.allInQuorum = false →
      s1.allInQuorum = false := by
  intro mons
  induction mons with
  | nil =>
    intro s s1 h ha
    cases h
    exact ha
  | cons m rest ih =>
    intro s s1 h ha
    unfold scanMons at h
    rcases hst : scanStep q d mlen o m s with s2 | s2 <;> rw [hst] at h
    · exact ih s2 s1 h (scanStep_inl_allQ_false q d mlen o m hst ha)
    · cases h

theorem scanMons_inl_allQ (q : List Int) (d : Int) (mlen : Nat) (o : HealthOracle) :
    ∀ (mons : List MonMapEntry) (s s1 : ScanSt),
      scanMons q d mlen o mons s = .inl s1 → s1.allInQuorum = true →
      ∀ m ∈ mons, monInQuorum m q = true := by
  intro mons
  induction mons with
  | nil =>
    intro s s1 h ha m hm
    cases hm
  | cons m0 rest ih =>
    intro s s1 h ha m hm
    unfold scanMons at h
    rcases hst : scanStep q d mlen o m0 s with s2 | s2 <;> rw [hst] at h
    · rcases List.mem_cons.1 hm with he | hr
      · subst he
        -- s2.allInQuorum must be true, else it would stay false through the rest
        by_cases h2 : s2.allInQuorum = true
        · exact (scanStep_inl_allQ q d mlen o m hst h2).1
        · exact absurd (scanMons_inl_allQ_false q d mlen o rest s2 s1 h
            (by simpa using h2)) (by rw [ha]; simp)
      · exact ih s2 s1 h ha m hr
    · cases h

theorem scanMons_tracker_frame (q : List Int) (d : Int) (mlen : Nat) (o : HealthOracle) :
    ∀ (mons : List MonMapEntry) (s : ScanSt) {k : String}, k ∉ mons.map (·.name) →
      lookupKey (scanOut (scanMons q d mlen o mons s)).cluster.monTimeoutList k
        = lookupKey s.cluster.monTimeoutList k := by
  intro mons
  induction mons with
  | nil =>
    intro s k _
    rfl
  | cons m rest ih =>
    intro s k hk
    rw [List.map_cons] at hk
    have hk1 : k ≠ m.name := fun e => hk (List.mem_cons.2 (Or.inl e))
    have hk2 : k ∉ rest.map (·.name) := fun e => hk (List.mem_cons_of_mem _ e)
    have hstep := scanStep_tracker_frame q d mlen o m s hk1
    unfold scanMons
    rcases hst : scanStep q d mlen o m s with s2 | s2 <;> rw [hst] at hstep <;>
      dsimp only [scanOut] at hstep
    · rw [ih s2 hk2, hstep]
    · exact hstep

theorem scanMons_cleared (q : List Int) (d : Int) (mlen : Nat) (o : HealthOracle) :
    ∀ (mons : List MonMapEntry) (s s1 : ScanSt), (mons.map (·.name)).Nodup →
      scanMons q d mlen o mons s = .inl s1 →
      ∀ m ∈ mons, monInQuorum m q = true →
        lookupKey s1.cluster.monTimeoutList m.name = none := by
  intro mons
  induction mons with
  | nil =>
    intro s s1 _ h m hm
    cases hm
  | cons m0 rest ih =>
    intro s s1 hnd h m hm hq
    rw [List.map_cons] at hnd
    rcases List.nodup_cons.1 hnd with ⟨hni, hnd'⟩
    unfold scanMons at h
    rcases hst : scanStep q d mlen o m0 s with s2 | s2 <;> rw [hst] at h
    · rcases List.mem_cons.1 hm with he | hr
      · subst he
        rcases scanStep_inv q d mlen o m s with ⟨_, he2⟩ | ⟨hq2, _, _⟩ |
          ⟨t0, hq2, _, _, _⟩ | ⟨t0, hq2, _, _, _⟩
        · rw [he2] at hst
          injection hst with hs2
          have htr : lookupKey s2.cluster.monTimeoutList m.name = none := by
            rw [← hs2]
            exact lookupKey_eraseKey_self _ _
          have h2 : scanMons q d mlen o rest s2 = Sum.inl s1 := h
          have hfr := scanMons_tracker_frame q d mlen o rest s2 hni
          rw [h2] at hfr
          dsimp only [scanOut] at hfr
          rw [hfr]
          exact htr
        · simp [hq] at hq2
        · simp [hq] at hq2
        · simp [hq] at hq2
      · exact ih s2 s1 hnd' h m hr hq
    · cases h

theorem scanMons_created (q : List Int) (d : Int) (mlen : Nat) (o : HealthOracle) :
    ∀ (mons : List MonMapEntry) (s s1 : ScanSt), (mons.map (·.name)).Nodup →
      scanMons q d mlen o mons s = .inl s1 →
      ∀ m ∈ mons, monInQuorum m q = false →
        lookupKey s.cluster.monTimeoutList m.name = none →
        lookupKey s1.cluster.monTimeoutList m.name = some o.now := by
  intro mons
  induction mons with
  | nil =>
    intro s s1 _ h m hm
    cases hm
  | cons m0 rest ih =>
    intro s s1 hnd h m hm hq ht
    rw [List.map_cons] at hnd
    rcases List.nodup_cons.1 hnd with ⟨hni, hnd'⟩
    unfold scanMons at h
    rcases hst : scanStep q d mlen o m0 s with s2 | s2 <;> rw [hst] at h
    · rcases List.mem_cons.1 hm with he | hr
      · subst he
        rcases scanStep_inv q d mlen o m s with ⟨hq2, _⟩ | ⟨_, _, he2⟩ |
          ⟨t0, _, ht2, _, _⟩ | ⟨t0, _, ht2, _, _⟩
        · simp [hq] at hq2
        · rw [he2] at hst
          injection hst with hs2
          have htr : lookupKey s2.cluster.monTimeoutList m.name = some o.now := by
            rw [← hs2]
            exact lookupKey_insertKey_self _ _ _
          have h2 : scanMons q d mlen o rest s2 = Sum.inl s1 := h
          have hfr := scanMons_tracker_frame q d mlen o rest s2 hni
          rw [h2] at hfr
          dsimp only [scanOut] at hfr
          rw [hfr]
          exact htr
        · rw [ht] at ht2
          cases ht2
        · rw [ht] at ht2
          cases ht2
      · have hne : m.name ≠ m0.name := by
          intro e
          exact hni (e ▸ List.mem_map.2 ⟨m, hr, rfl⟩)
        have hstep := scanStep_tracker_frame q d mlen o m0 s hne
        rw [hst] at hstep
        dsimp only [scanOut] at hstep
        exact ih s2 s1 hnd' h m hr hq (by rw [hstep]; exact ht)
    · cases h

/-- The scan invariant tying `monsNotFound` to the monitors map: every mon
still to be scanned is in `notFound` exactly when it is a key of
`clusterInfo.Monitors`. -/
def NotFoundInv (mons : List MonMapEntry) (s : ScanSt) : Prop :=
  ∀ m ∈ mons, (m.name ∈ s.notFound ↔ (lookupKey s.cluster.monitors m.name).isSome = true)

theorem scanStep_preserves_inv (q : List Int) (d : Int) (mlen : Nat) (o : HealthOracle)
    (m : MonMapEntry) (rest : List MonMapEntry) {s s1 : ScanSt}
    (hnd : ((m :: rest).map (·.name)).Nodup) (hinv : NotFoundInv (m :: rest) s)
    (h : scanStep q d mlen o m s = .inl s1) :
    NotFoundInv rest s1 ∧ s1.cluster.monitors = s.cluster.monitors := by
  have hm := hinv m (List.mem_cons_self m rest)
  have hmon : s1.cluster.monitors = s.cluster.monitors :=
    scanStep_inl_monitors q d mlen o m (fun hs => hm.2 hs) h
  refine ⟨?_, hmon⟩
  intro m' hm'
  rw [List.map_cons] at hnd
  rcases List.nodup_cons.1 hnd with ⟨hni, _⟩
  have hne : m'.name ≠ m.name := fun e => hni (e ▸ List.mem_map.2 ⟨m', hm', rfl⟩)
  have hnf : s1.notFound = (scanMembership d mlen o m (monInQuorum m q) s).notFound := by
    have h0 := scanStep_notFound q d mlen o m s
    rw [h] at h0
    exact h0
  rw [hmon, hnf, scanMembership_notFound]
  split
  · rw [mem_eraseStr_ne hne]
    exact hinv m' (List.mem_cons_of_mem m hm')
  · exact hinv m' (List.mem_cons_of_mem m hm')

theorem scanMons_monitors_inv (q : List Int) (d : Int) (mlen : Nat) (o : HealthOracle) :
    ∀ (mons : List MonMapEntry) (s s1 : ScanSt), (mons.map (·.name)).Nodup →
      NotFoundInv mons s → scanMons q d mlen o mons s = .inl s1 →
      s1.cluster.monitors = s.cluster.monitors := by
  intro mons
  induction mons with
  | nil =>
    intro s s1 _ _ h
    cases h
    rfl
  | cons m rest ih =>
    intro s s1 hnd hinv h
    unfold scanMons at h
    rcases hst : scanStep q d mlen o m s with s2 | s2 <;> rw [hst] at h
    · have h2 : scanMons q d mlen o rest s2 = Sum.inl s1 := h
      have hpres := scanStep_preserves_inv q d mlen o m rest hnd hinv hst
      rw [ih s2 s1 (by rw [List.map_cons] at hnd; exact (List.nodup_cons.1 hnd).2)
        hpres.1 h2, hpres.2]
    · cases h

theorem scanMembership_stale_mem (d : Int) (mlen : Nat) (o : HealthOracle)
    (m : MonMapEntry) (inQ : Bool) (s : ScanSt) {nm : String}
    (h : Action.removeStaleUnknown nm ∈ (scanMembership d mlen o m inQ s).trace) :
    Action.removeStaleUnknown nm ∈ s.trace ∨
      (nm = m.name ∧ m.name ∉ s.notFound ∧ inQ = true ∧ (mlen : Int) > d) := by
  rw [scanMembership_trace] at h
  by_cases hc : m.name ∉ s.notFound ∧ inQ = true ∧ (mlen : Int) > d
  · rw [if_pos hc] at h
    rcases List.mem_append.1 h with h1 | h1
    · exact Or.inl h1
    · have he : nm = m.name := by simpa using h1
      exact Or.inr ⟨he, hc.1, hc.2.1, hc.2.2⟩
  · rw [if_neg hc] at h
    exact Or.inl h

theorem scanMons_stale_sound (q : List Int) (d : Int) (mlen : Nat) (o : HealthOracle) :
    ∀ (mons : List MonMapEntry) (s : ScanSt), (mons.map (·.name)).Nodup →
      NotFoundInv mons s → ∀ {nm : String},
      Action.removeStaleUnknown nm ∈ (scanOut (scanMons q d mlen o mons s)).trace →
      Action.removeStaleUnknown nm ∈ s.trace ∨
        ∃ m ∈ mons, m.name = nm ∧ monInQuorum m q = true ∧ (mlen : Int) > d ∧
          lookupKey s.cluster.monitors nm = none := by
  intro mons
  induction mons with
  | nil =>
    intro s _ _ nm ha
    exact Or.inl ha
  | cons m rest ih =>
    intro s hnd hinv nm ha
    have hm0 := hinv m (List.mem_cons_self m rest)
    unfold scanMons at ha
    have hstale :
        Action.removeStaleUnknown nm ∈ (scanMembership d mlen o m (monInQuorum m q) s).trace →
        Action.removeStaleUnknown nm ∈ s.trace ∨
          ∃ m' ∈ m :: rest, m'.name = nm ∧ monInQuorum m' q = true ∧ (mlen : Int) > d ∧
            lookupKey s.cluster.monitors nm = none := by
      intro hmem
      rcases scanMembership_stale_mem d mlen o m (monInQuorum m q) s hmem with h1 | h1
      · exact Or.inl h1
      · refine Or.inr ⟨m, List.mem_cons_self m rest, h1.1.symm, h1.2.2.1, h1.2.2.2, ?_⟩
        rcases hl : lookupKey s.cluster.monitors nm with _ | v
        · rfl
        · rw [h1.1] at hl
          exact absurd (hm0.2 (by rw [hl]; rfl)) h1.2.1
    rcases hst : scanStep q d mlen o m s with s2 | s2 <;> rw [hst] at ha
    · have ha2 : Action.removeStaleUnknown nm
          ∈ (scanOut (scanMons q d mlen o rest s2)).trace := ha
      have hpres := scanStep_preserves_inv q d mlen o m rest hnd hinv hst
      rcases ih s2 (by rw [List.map_cons] at hnd; exact (List.nodup_cons.1 hnd).2)
        hpres.1 ha2 with h1 | ⟨m', hm', hn', hq', hgt', hlook'⟩
      · have ht : s2.trace = (scanMembership d mlen o m (monInQuorum m q) s).trace :=
          scanStep_inl_trace q d mlen o m hst
        rw [ht] at h1
        exact hstale h1
      · exact Or.inr ⟨m', List.mem_cons_of_mem m hm', hn', hq', hgt',
          by rw [← hpres.2]; exact hlook'⟩
    · have ha2 : Action.removeStaleUnknown nm ∈ s2.trace := ha
      rw [scanStep_inr_trace q d mlen o m hst] at ha2
      rcases List.mem_append.1 ha2 with h1 | h1
      · exact hstale h1
      · simp at h1

theorem scanMons_stale_complete (q : List Int) (d : Int) (mlen : Nat) (o : HealthOracle) :
    ∀ (mons : List MonMapEntry) (s s1 : ScanSt), (mons.map (·.name)).Nodup →
      NotFoundInv mons s → scanMons q d mlen o mons s = .inl s1 →
      ∀ m ∈ mons, monInQuorum m q = true → (mlen : Int) > d →
        lookupKey s.cluster.monitors m.name = none →
        Action.removeStaleUnknown m.name ∈ s1.trace := by
  intro mons
  induction mons with
  | nil =>
    intro s s1 _ _ h m hm
    cases hm
  | cons m0 rest ih =>
    intro s s1 hnd hinv h m hm hq hgt hlook
    unfold scanMons at h
    rcases hst : scanStep q d mlen o m0 s with s2 | s2 <;> rw [hst] at h
    · have h2 : scanMons q d mlen o rest s2 = Sum.inl s1 := h
      have hpres := scanStep_preserves_inv q d mlen o m0 rest hnd hinv hst
      rcases List.mem_cons.1 hm with he | hr
      · subst he
        have hm0 := hinv m (List.mem_cons_self m rest)
        have hnm : m.name ∉ s.notFound := by
          intro hmem
          have := hm0.1 hmem
          rw [hlook] at this
          cases this
        have hmem2 : Action.removeStaleUnknown m.name ∈ s2.trace := by
          rw [scanStep_inl_trace q d mlen o m hst, scanMembership_trace,
            if_pos ⟨hnm, hq, hgt⟩]
          exact List.mem_append_right _ (List.mem_singleton.2 rfl)
        have := scanMons_trace_mono q d mlen o rest s2 hmem2
        rw [h2] at this
        exact this
      · exact ih s2 s1 (by rw [List.map_cons] at hnd; exact (List.nodup_cons.1 hnd).2)
          hpres.1 h2 m hr hq hgt (by rw [hpres.2]; exact hlook)
    · cases h

/-! ## Case analysis of `checkHealth` -/

theorem checkHealth_early (c : ClusterState) (w : World) (desired : Int)
    (st : MonStatusReport) (o : HealthOracle) {s : ScanSt}
    (h : scanMons st.quorum desired st.mons.length o st.mons
      ⟨c.monitors.map (·.1), c, w, true, []⟩ = .inr s) :
    checkHealth c w desired st o = ⟨.ok (), s.cluster, s.world, s.trace, true⟩ := by
  unfold checkHealth
  dsimp only
  rw [h]

/-- After a completed scan, `checkHealth` takes exactly one of six exits:
fail over a mon missing from the report, scale up, refuse the 2-to-1
scale-down, hit the empty-mon-map corner (a Go panic, modelled as an error),
scale down by removing the first reported mon, or do nothing. -/
theorem checkHealth_done_cases (c : ClusterState) (w : World) (desired : Int)
    (st : MonStatusReport) (o : HealthOracle) {s : ScanSt}
    (h : scanMons st.quorum desired st.mons.length o st.mons
      ⟨c.monitors.map (·.1), c, w, true, []⟩ = .inl s) :
    (∃ nm t, s.notFound = nm :: t ∧
      checkHealth c w desired st o =
        ⟨.ok (), (failMon s.cluster s.world o s.cluster.monitors.length desired nm).1,
         (failMon s.cluster s.world o s.cluster.monitors.length desired nm).2,
         s.trace ++ [Action.failNotFound s.cluster.monitors.length nm], false⟩) ∨
    (s.notFound = [] ∧ (st.mons.length : Int) < desired ∧
      checkHealth c w desired st o =
        ⟨if o.startMonsFails then .error "failed to start mons" else .ok (),
         s.cluster, s.world, s.trace ++ [Action.scaleUp st.mons.length desired], false⟩) ∨
    (s.notFound = [] ∧ ¬ (st.mons.length : Int) < desired ∧
      s.allInQuorum = true ∧ (st.mons.length : Int) > desired ∧
      (desired < 2 ∧ st.mons.length = 2) ∧
      checkHealth c w desired st o = ⟨.ok (), s.cluster, s.world, s.trace, false⟩) ∨
    (s.notFound = [] ∧ ¬ (st.mons.length : Int) < desired ∧
      s.allInQuorum = true ∧ (st.mons.length : Int) > desired ∧
      ¬ (desired < 2 ∧ st.mons.length = 2) ∧ st.mons = [] ∧
      checkHealth c w desired st o =
        ⟨.error "index out of range", s.cluster, s.world, s.trace, false⟩) ∨
    (∃ m0 mt, s.notFound = [] ∧ ¬ (st.mons.length : Int) < desired ∧
      s.allInQuorum = true ∧ (st.mons.length : Int) > desired ∧
      ¬ (desired < 2 ∧ st.mons.length = 2) ∧ st.mons = m0 :: mt ∧
      checkHealth c w desired st o =
        ⟨(removeMon s.cluster s.world (o.removal m0.name) m0.name).1,
         (removeMon s.cluster s.world (o.removal m0.name) m0.name).2.1,
         (removeMon s.cluster s.world (o.removal m0.name) m0.name).2.2,
         s.trace ++ [Action.scaleDownRemove m0.name], false⟩) ∨
    (s.notFound = [] ∧ ¬ (st.mons.length : Int) < desired ∧
      ¬ (s.allInQuorum = true ∧ (st.mons.length : Int) > desired) ∧
      checkHealth c w desired st o = ⟨.ok (), s.cluster, s.world, s.trace, false⟩) := by
  rcases hnf : s.notFound with _ | ⟨nm, t⟩
  · by_cases h1 : (st.mons.length : Int) < desired
    · refine Or.inr (Or.inl ⟨rfl, h1, ?_⟩)
      unfold checkHealth
      dsimp only
      rw [h]
      dsimp only
      rw [hnf]
      dsimp only
      rw [if_pos h1]
    · by_cases h2 : s.allInQuorum = true ∧ (st.mons.length : Int) > desired
      · by_cases h3 : desired < 2 ∧ st.mons.length = 2
        · refine Or.inr (Or.inr (Or.inl ⟨rfl, h1, h2.1, h2.2, h3, ?_⟩))
          unfold checkHealth
          dsimp only
          rw [h]
          dsimp only
          rw [hnf]
          dsimp only
          rw [if_neg h1, if_pos h2, if_pos h3]
        · by_cases hme : st.mons = []
          · refine Or.inr (Or.inr (Or.inr (Or.inl ⟨rfl, h1, h2.1, h2.2, h3, hme, ?_⟩)))
            unfold checkHealth
            dsimp only
            rw [h]
            dsimp only
            rw [hnf]
            dsimp only
            rw [if_neg h1, if_pos h2, if_neg h3, hme]
          · obtain ⟨m0, mt, hm⟩ : ∃ m0 mt, st.mons = m0 :: mt := by
              rcases hsm : st.mons with _ | ⟨a, b⟩
              · exact absurd hsm hme
              · exact ⟨a, b, rfl⟩
            refine Or.inr (Or.inr (Or.inr (Or.inr (Or.inl
              ⟨m0, mt, rfl, h1, h2.1, h2.2, h3, hm, ?_⟩))))
            unfold checkHealth
            dsimp only
            rw [h]
            dsimp only
            rw [hnf]
            dsimp only
            rw [if_neg h1, if_pos h2, if_neg h3, hm]
      · refine Or.inr (Or.inr (Or.inr (Or.inr (Or.inr ⟨rfl, h1, h2, ?_⟩))))
        unfold checkHealth
        dsimp only
        rw [h]
        dsimp only
        rw [hnf]
        dsimp only
        rw [if_neg h1, if_neg h2]
  · refine Or.inl ⟨nm, t, rfl, ?_⟩
    unfold checkHealth
    dsimp only
    rw [h]
    dsimp only
    rw [hnf]

/-! ## Claims about `checkHealth` -/

theorem dlen_failNotFound (cnt : Nat) (nm : String) :
    dlen [Action.failNotFound cnt nm] = 1 := rfl

theorem dlen_scaleUp (cu : Nat) (d : Int) : dlen [Action.scaleUp cu d] = 1 := rfl

theorem dlen_scaleDownRemove (nm : String) : dlen [Action.scaleDownRemove nm] = 1 := rfl

/-- **C1 (counterexample)**: the claim that at most one of removal, failover,
scale-up, scale-down is performed per `checkHealth` invocation fails on the
code: with two reported mons unknown to an empty membership, both in quorum,
and a desired count of 1, one cycle performs two immediate removals (the
stale-unknown removal at health.go:106 does not return from the loop). -/
theorem checkHealth_two_removals_counterexample :
    (checkHealth ⟨[], [], [], 0, false⟩ ⟨[], [], []⟩ 1
        ⟨[⟨"x", 0⟩, ⟨"y", 1⟩], [0, 1]⟩
        ⟨fun _ => okRemoval, okFailover, false, 0⟩).trace
      = [Action.removeStaleUnknown "x", Action.removeStaleUnknown "y"] ∧
    ¬ ((checkHealth ⟨[], [], [], 0, false⟩ ⟨[], [], []⟩ 1
        ⟨[⟨"x", 0⟩, ⟨"y", 1⟩], [0, 1]⟩
        ⟨fun _ => okRemoval, okFailover, false, 0⟩).trace.length ≤ 1) := by
  constructor
  · decide
  · decide

/-- **C1 (amended)**: per `checkHealth` invocation, at most one action of
{failover-dispatch for an out-of-quorum mon, failover-dispatch for a mon
missing from the report, scale-up, scale-down} is performed; immediate
removals of daemons unknown to membership are excluded from this bound, as
any number of them can occur in the same invocation. -/
theorem checkHealth_at_most_one_dispatch (c : ClusterState) (w : World) (desired : Int)
    (statusResult : Option MonStatusReport) (o : HealthOracle) :
    dlen (checkHealthFromStatus c w desired statusResult o).trace ≤ 1 := by
  rcases statusResult with _ | st
  · exact Nat.le_succ 0
  · show dlen (checkHealth c w desired st o).trace ≤ 1
    rcases hscan : scanMons st.quorum desired st.mons.length o st.mons
        ⟨c.monitors.map (·.1), c, w, true, []⟩ with s | s
    · have h0 : dlen s.trace = 0 :=
        scanMons_inl_dlen st.quorum desired st.mons.length o st.mons _ s hscan
      rcases checkHealth_done_cases c w desired st o hscan with
        ⟨nm, t, _, he⟩ | ⟨_, _, he⟩ | ⟨_, _, _, _, _, he⟩ | ⟨_, _, _, _, _, _, he⟩ |
        ⟨m0, mt, _, _, _, _, _, _, he⟩ | ⟨_, _, _, he⟩ <;> rw [he]
      · rw [show (⟨.ok (), (failMon s.cluster s.world o s.cluster.monitors.length desired nm).1,
            (failMon s.cluster s.world o s.cluster.monitors.length desired nm).2,
            s.trace ++ [Action.failNotFound s.cluster.monitors.length nm], false⟩
              : CheckResult).trace
            = s.trace ++ [Action.failNotFound s.cluster.monitors.length nm] from rfl,
          dlen_append, h0, dlen_failNotFound]
      · rw [show (⟨if o.startMonsFails then .error "failed to start mons" else .ok (),
            s.cluster, s.world, s.trace ++ [Action.scaleUp st.mons.length desired], false⟩
              : CheckResult).trace
            = s.trace ++ [Action.scaleUp st.mons.length desired] from rfl,
          dlen_append, h0, dlen_scaleUp]
      · rw [show (⟨.ok (), s.cluster, s.world, s.trace, false⟩ : CheckResult).trace
            = s.trace from rfl, h0]
        exact Nat.zero_le 1
      · rw [show (⟨.error "index out of range", s.cluster, s.world, s.trace, false⟩
              : CheckResult).trace = s.trace from rfl, h0]
        exact Nat.zero_le 1
      · rw [show (⟨(removeMon s.cluster s.world (o.removal m0.name) m0.name).1,
            (removeMon s.cluster s.world (o.removal m0.name) m0.name).2.1,
            (removeMon s.cluster s.world (o.removal m0.name) m0.name).2.2,
            s.trace ++ [Action.scaleDownRemove m0.name], false⟩ : CheckResult).trace
            = s.trace ++ [Action.scaleDownRemove m0.name] from rfl,
          dlen_append, h0, dlen_scaleDownRemove]
      · rw [show (⟨.ok (), s.cluster, s.world, s.trace, false⟩ : CheckResult).trace
            = s.trace from rfl, h0]
        exact Nat.zero_le 1
    · rw [checkHealth_early c w desired st o hscan]
      rw [show (⟨.ok (), s.cluster, s.world, s.trace, true⟩ : CheckResult).trace
          = s.trace from rfl,
        scanMons_inr_dlen st.quorum desired st.mons.length o st.mons _ s hscan]
      exact Nat.le_refl 1

/-- **C4 (counterexample)**: the claim that after a cycle no daemon reported
in quorum retains a tracker entry fails on the code: when an earlier daemon
in the mon map is failed over, the cycle returns before reaching the later
daemon, so mon "b" keeps its stale entry although it is reported in
quorum. -/
theorem checkHealth_stale_tracker_counterexample :
    monInQuorum ⟨"b", 1⟩ [1] = true ∧
    (checkHealth ⟨[("a", ⟨"a", "10.0.0.1", 6790⟩), ("b", ⟨"b", "10.0.0.2", 6790⟩)], [],
        [("a", 0), ("b", 50)], 4, false⟩ ⟨[], [], []⟩ 2
        ⟨[⟨"a", 0⟩, ⟨"b", 1⟩], [1]⟩
        ⟨fun _ => okRemoval, okFailover, false, 10000⟩).earlyReturn = true ∧
    lookupKey (checkHealth ⟨[("a", ⟨"a", "10.0.0.1", 6790⟩), ("b", ⟨"b", "10.0.0.2", 6790⟩)],
        [], [("a", 0), ("b", 50)], 4, false⟩ ⟨[], [], []⟩ 2
        ⟨[⟨"a", 0⟩, ⟨"b", 1⟩], [1]⟩
        ⟨fun _ => okRemoval, okFailover, false, 10000⟩).cluster.monTimeoutList "b"
      = some 50 := by
  refine ⟨?_, ?_, ?_⟩ <;> decide

/-- **C4 (amended)**: provided reported daemon names are distinct and the
cycle completes its scan without an early failover return, every reported
daemon in quorum has no timeout-tracker entry after the cycle, and every
reported daemon out of quorum with no prior entry gets one stamped with the
current time. -/
theorem checkHealth_tracker_spec (c : ClusterState) (w : World) (desired : Int)
    (st : MonStatusReport) (o : HealthOracle)
    (hnd : (st.mons.map (·.name)).Nodup)
    (hearly : (checkHealth c w desired st o).earlyReturn = false) :
    (∀ m ∈ st.mons, monInQuorum m st.quorum = true →
      lookupKey (checkHealth c w desired st o).cluster.monTimeoutList m.name = none) ∧
    (∀ m ∈ st.mons, monInQuorum m st.quorum = false →
      lookupKey c.monTimeoutList m.name = none →
      lookupKey (checkHealth c w desired st o).cluster.monTimeoutList m.name
        = some o.now) := by
  rcases hscan : scanMons st.quorum desired st.mons.length o st.mons
      ⟨c.monitors.map (·.1), c, w, true, []⟩ with s | s
  · have htr : (checkHealth c w desired st o).cluster.monTimeoutList
        = s.cluster.monTimeoutList := by
      rcases checkHealth_done_cases c w desired st o hscan with
        ⟨nm, t, _, he⟩ | ⟨_, _, he⟩ | ⟨_, _, _, _, _, he⟩ | ⟨_, _, _, _, _, _, he⟩ |
        ⟨m0, mt, _, _, _, _, _, _, he⟩ | ⟨_, _, _, he⟩ <;> rw [he] <;>
        first
          | rfl
          | exact failMon_monTimeoutList _ _ _ _ _ _
          | exact removeMon_monTimeoutList _ _ _ _
    constructor
    · intro m hm hq
      rw [htr]
      exact scanMons_cleared st.quorum desired st.mons.length o st.mons _ s hnd hscan m hm hq
    · intro m hm hq ht
      rw [htr]
      exact scanMons_created st.quorum desired st.mons.length o st.mons _ s hnd hscan
        m hm hq ht
  · rw [checkHealth_early c w desired st o hscan] at hearly
    cases hearly

/-- Witness for `checkHealth_tracker_spec`: a cycle with mon "a" in quorum
(with a stale entry to clear) and mon "b" freshly out of quorum completes
without early return, clears "a" and stamps "b" at the current time. -/
theorem checkHealth_tracker_spec_witness :
    (lookupKey (checkHealth ⟨[("a", ⟨"a", "10.0.0.1", 6790⟩), ("b", ⟨"b", "10.0.0.2", 6790⟩)],
        [], [("a", 7)], 3, false⟩ ⟨[], [], []⟩ 2
        ⟨[⟨"a", 0⟩, ⟨"b", 1⟩], [0]⟩
        ⟨fun _ => okRemoval, okFailover, false, 100⟩).cluster.monTimeoutList "a" = none) ∧
    (lookupKey (checkHealth ⟨[("a", ⟨"a", "10.0.0.1", 6790⟩), ("b", ⟨"b", "10.0.0.2", 6790⟩)],
        [], [("a", 7)], 3, false⟩ ⟨[], [], []⟩ 2
        ⟨[⟨"a", 0⟩, ⟨"b", 1⟩], [0]⟩
        ⟨fun _ => okRemoval, okFailover, false, 100⟩).cluster.monTimeoutList "b"
      = some 100) := by
  constructor
  · exact (checkHealth_tracker_spec
      ⟨[("a", ⟨"a", "10.0.0.1", 6790⟩), ("b", ⟨"b", "10.0.0.2", 6790⟩)], [], [("a", 7)], 3,
        false⟩ ⟨[], [], []⟩ 2 ⟨[⟨"a", 0⟩, ⟨"b", 1⟩], [0]⟩
      ⟨fun _ => okRemoval, okFailover, false, 100⟩ (by decide) (by decide)).1
      ⟨"a", 0⟩ (by decide) (by decide)
  · exact (checkHealth_tracker_spec
      ⟨[("a", ⟨"a", "10.0.0.1", 6790⟩), ("b", ⟨"b", "10.0.0.2", 6790⟩)], [], [("a", 7)], 3,
        false⟩ ⟨[], [], []⟩ 2 ⟨[⟨"a", 0⟩, ⟨"b", 1⟩], [0]⟩
      ⟨fun _ => okRemoval, okFailover, false, 100⟩ (by decide) (by decide)).2
      ⟨"b", 1⟩ (by decide) (by decide) (by decide)

/-- **C2 (counterexample)**: the claim fails on the code in two respects.
(a) The immediate removal of an unknown reported daemon is guarded by the
total reported mon-map size, not the reported quorum size: with 3 reported
mons, only 2 of them in quorum, and a desired count of 2, the unknown mon
"u" is removed although the quorum size (2) does not exceed the desired
count.  (b) An unknown daemon that is not removed is not left untouched in
that cycle: once its timeout entry is stale it is dispatched to `failMon`
in the same cycle. -/
theorem checkHealth_unknown_counterexample :
    (Action.removeStaleUnknown "u" ∈ (checkHealth
        ⟨[("k1", ⟨"k1", "10.0.0.1", 6790⟩), ("k2", ⟨"k2", "10.0.0.2", 6790⟩)], [], [], 2,
          false⟩
        ⟨[], [], []⟩ 2 ⟨[⟨"u", 0⟩, ⟨"k1", 1⟩, ⟨"k2", 2⟩], [0, 1]⟩
        ⟨fun _ => okRemoval, okFailover, false, 0⟩).trace ∧
      ¬ ((([0, 1] : List Int).length : Int) > 2)) ∧
    Action.failOutOfQuorum 1 "u" ∈ (checkHealth ⟨[], [], [("u", 0)], 0, false⟩
        ⟨[], [], ["u"]⟩ 0 ⟨[⟨"u", 0⟩], []⟩
        ⟨fun _ => okRemoval, okFailover, false, 10000⟩).trace := by
  refine ⟨⟨?_, ?_⟩, ?_⟩ <;> decide

/-- **C2 (amended)**: for distinct reported names, a daemon is immediately
removed as a stale unknown during the scan exactly when it is not in
`clusterInfo.Monitors`, is in quorum, and the total reported mon-map size
exceeds the snapshotted desired count — where the "only if" direction holds
of every performed removal, and the "if" direction holds whenever the scan
completes without an early failover return.  Daemons not removed this way
are still subject to the shared out-of-quorum timeout handling. -/
theorem checkHealth_stale_unknown_spec (c : ClusterState) (w : World) (desired : Int)
    (st : MonStatusReport) (o : HealthOracle)
    (hnd : (st.mons.map (·.name)).Nodup) :
    (∀ nm, Action.removeStaleUnknown nm ∈ (checkHealth c w desired st o).trace →
      ∃ m ∈ st.mons, m.name = nm ∧ monInQuorum m st.quorum = true ∧
        (st.mons.length : Int) > desired ∧ lookupKey c.monitors nm = none) ∧
    ((checkHealth c w desired st o).earlyReturn = false →
      ∀ m ∈ st.mons, lookupKey c.monitors m.name = none →
        monInQuorum m st.quorum = true → (st.mons.length : Int) > desired →
        Action.removeStaleUnknown m.name ∈ (checkHealth c w desired st o).trace) := by
  have hinv : NotFoundInv st.mons ⟨c.monitors.map (·.1), c, w, true, []⟩ :=
    fun m _ => mem_keys_iff_lookup_isSome c.monitors m.name
  rcases hscan : scanMons st.quorum desired st.mons.length o st.mons
      ⟨c.monitors.map (·.1), c, w, true, []⟩ with s | s
  · obtain ⟨tail, htrace, hnostale⟩ : ∃ tail,
        (checkHealth c w desired st o).trace = s.trace ++ tail ∧
        ∀ nm, Action.removeStaleUnknown nm ∉ tail := by
      rcases checkHealth_done_cases c w desired st o hscan with
        ⟨nm, t, _, he⟩ | ⟨_, _, he⟩ | ⟨_, _, _, _, _, he⟩ | ⟨_, _, _, _, _, _, he⟩ |
        ⟨m0, mt, _, _, _, _, _, _, he⟩ | ⟨_, _, _, he⟩ <;> rw [he]
      · exact ⟨[Action.failNotFound s.cluster.monitors.length nm], rfl, by simp⟩
      · exact ⟨[Action.scaleUp st.mons.length desired], rfl, by simp⟩
      · exact ⟨[], by simp, by simp⟩
      · exact ⟨[], by simp, by simp⟩
      · exact ⟨[Action.scaleDownRemove m0.name], rfl, by simp⟩
      · exact ⟨[], by simp, by simp⟩
    constructor
    · intro nm hmem
      rw [htrace] at hmem
      rcases List.mem_append.1 hmem with h1 | h1
      · have hs : Action.removeStaleUnknown nm
            ∈ (scanOut (scanMons st.quorum desired st.mons.length o st.mons
              ⟨c.monitors.map (·.1), c, w, true, []⟩)).trace := by
          rw [hscan]
          exact h1
        rcases scanMons_stale_sound st.quorum desired st.mons.length o st.mons _
          hnd hinv hs with h2 | h2
        · cases h2
        · exact h2
      · exact absurd h1 (hnostale nm)
    · intro _ m hm hlook hq hgt
      rw [htrace]
      exact List.mem_append_left _
        (scanMons_stale_complete st.quorum desired st.mons.length o st.mons _ s
          hnd hinv hscan m hm hq hgt hlook)
  · constructor
    · intro nm hmem
      rw [checkHealth_early c w desired st o hscan] at hmem
      have hs : Action.removeStaleUnknown nm
          ∈ (scanOut (scanMons st.quorum desired st.mons.length o st.mons
            ⟨c.monitors.map (·.1), c, w, true, []⟩)).trace := by
        rw [hscan]
        exact hmem
      rcases scanMons_stale_sound st.quorum desired st.mons.length o st.mons _
        hnd hinv hs with h2 | h2
      · cases h2
      · exact h2
    · intro hearly
      rw [checkHealth_early c w desired st o hscan] at hearly
      cases hearly

/-- Witness for `checkHealth_stale_unknown_spec`: the unknown in-quorum mon
"u" is removed when 2 reported mons exceed a desired count of 1; applying
the theorem recovers the guard conditions. -/
theorem checkHealth_stale_unknown_spec_witness :
    Action.removeStaleUnknown "u" ∈ (checkHealth ⟨[("k1", ⟨"k1", "10.0.0.1", 6790⟩)], [],
        [], 3, false⟩ ⟨[], [], []⟩ 1 ⟨[⟨"u", 0⟩, ⟨"k1", 1⟩], [0, 1]⟩
        ⟨fun _ => okRemoval, okFailover, false, 0⟩).trace ∧
    ∃ m ∈ ([⟨"u", 0⟩, ⟨"k1", 1⟩] : List MonMapEntry), m.name = "u" ∧
      monInQuorum m [0, 1] = true ∧ ((2 : Nat) : Int) > 1 ∧
      lookupKey [("k1", (⟨"k1", "10.0.0.1", 6790⟩ : MonInfo))] "u" = none := by
  constructor
  · decide
  · exact (checkHealth_stale_unknown_spec ⟨[("k1", ⟨"k1", "10.0.0.1", 6790⟩)], [], [], 3,
      false⟩ ⟨[], [], []⟩ 1 ⟨[⟨"u", 0⟩, ⟨"k1", 1⟩], [0, 1]⟩
      ⟨fun _ => okRemoval, okFailover, false, 0⟩ (by decide)).1 "u" (by decide)

/-- **C5**: scale-down never shrinks the quorum from 2 below 2: a scale-down
removal is performed only when all reported daemons are in quorum and the
reported count exceeds the desired count, and never when the desired count
is below 2 while the reported count equals 2. -/
theorem checkHealth_scaledown_guard (c : ClusterState) (w : World) (desired : Int)
    (st : MonStatusReport) (o : HealthOracle) :
    (∀ nm, Action.scaleDownRemove nm ∈ (checkHealth c w desired st o).trace →
      (∀ m ∈ st.mons, monInQuorum m st.quorum = true) ∧
      (st.mons.length : Int) > desired ∧ ¬ (desired < 2 ∧ st.mons.length = 2)) ∧
    (desired < 2 ∧ st.mons.length = 2 →
      ∀ nm, Action.scaleDownRemove nm ∉ (checkHealth c w desired st o).trace) := by
  have hmain : ∀ nm, Action.scaleDownRemove nm ∈ (checkHealth c w desired st o).trace →
      (∀ m ∈ st.mons, monInQuorum m st.quorum = true) ∧
      (st.mons.length : Int) > desired ∧ ¬ (desired < 2 ∧ st.mons.length = 2) := by
    intro nm hmem
    rcases hscan : scanMons st.quorum desired st.mons.length o st.mons
        ⟨c.monitors.map (·.1), c, w, true, []⟩ with s | s
    · have hscannot : Action.scaleDownRemove nm ∉ s.trace := by
        intro h1
        have hs : Action.scaleDownRemove nm
            ∈ (scanOut (scanMons st.quorum desired st.mons.length o st.mons
              ⟨c.monitors.map (·.1), c, w, true, []⟩)).trace := by
          rw [hscan]
          exact h1
        rcases scanMons_trace_new st.quorum desired st.mons.length o st.mons _ hs with
          h2 | ⟨m', _, h2 | h2⟩
        · cases h2
        · cases h2
        · cases h2
      rcases checkHealth_done_cases c w desired st o hscan with
        ⟨nm0, t, _, he⟩ | ⟨_, _, he⟩ | ⟨_, _, _, _, _, he⟩ | ⟨_, _, _, _, _, _, he⟩ |
        ⟨m0, mt, _, _, hallq, hgt, hfloor, _, he⟩ | ⟨_, _, _, he⟩ <;> rw [he] at hmem
      · rcases List.mem_append.1 hmem with h1 | h1
        · exact absurd h1 hscannot
        · simp at h1
      · rcases List.mem_append.1 hmem with h1 | h1
        · exact absurd h1 hscannot
        · simp at h1
      · exact absurd hmem hscannot
      · exact absurd hmem hscannot
      · refine ⟨?_, hgt, hfloor⟩
        exact scanMons_inl_allQ st.quorum desired st.mons.length o st.mons _ s hscan hallq
      · exact absurd hmem hscannot
    · rw [checkHealth_early c w desired st o hscan] at hmem
      have hs : Action.scaleDownRemove nm
          ∈ (scanOut (scanMons st.quorum desired st.mons.length o st.mons
            ⟨c.monitors.map (·.1), c, w, true, []⟩)).trace := by
        rw [hscan]
        exact hmem
      rcases scanMons_trace_new st.quorum desired st.mons.length o st.mons _ hs with
        h2 | ⟨m', _, h2 | h2⟩
      · cases h2
      · cases h2
      · cases h2
  refine ⟨hmain, ?_⟩
  intro hfloor nm hmem
  exact absurd hfloor (hmain nm hmem).2.2

/-- Witness for `checkHealth_scaledown_guard`: with three healthy mons and a
desired count of 2, the scale-down fires and the theorem yields its guard
conditions. -/
theorem checkHealth_scaledown_guard_witness :
    (∀ m ∈ ([⟨"a", 0⟩, ⟨"b", 1⟩, ⟨"c", 2⟩] : List MonMapEntry),
      monInQuorum m [0, 1, 2] = true) ∧ ((3 : Nat) : Int) > 2 ∧
      ¬ ((2 : Int) < 2 ∧ (3 : Nat) = 2) :=
  (checkHealth_scaledown_guard
    ⟨[("a", ⟨"a", "10.0.0.1", 6790⟩), ("b", ⟨"b", "10.0.0.2", 6790⟩),
      ("c", ⟨"c", "10.0.0.3", 6790⟩)], [], [], 4, false⟩ ⟨[], [], []⟩ 2
    ⟨[⟨"a", 0⟩, ⟨"b", 1⟩, ⟨"c", 2⟩], [0, 1, 2]⟩
    ⟨fun _ => okRemoval, okFailover, false, 0⟩).1 "a" (by decide)

/-- **C10**: when scale-down fires, the removed member is deterministically
the first element of the reported mon-map list. -/
theorem checkHealth_scaledown_head (c : ClusterState) (w : World) (desired : Int)
    (st : MonStatusReport) (o : HealthOracle) :
    ∀ nm, Action.scaleDownRemove nm ∈ (checkHealth c w desired st o).trace →
      ∃ m0 mt, st.mons = m0 :: mt ∧ nm = m0.name := by
  intro nm hmem
  rcases hscan : scanMons st.quorum desired st.mons.length o st.mons
      ⟨c.monitors.map (·.1), c, w, true, []⟩ with s | s
  · have hscannot : Action.scaleDownRemove nm ∉ s.trace := by
      intro h1
      have hs : Action.scaleDownRemove nm
          ∈ (scanOut (scanMons st.quorum desired st.mons.length o st.mons
            ⟨c.monitors.map (·.1), c, w, true, []⟩)).trace := by
        rw [hscan]
        exact h1
      rcases scanMons_trace_new st.quorum desired st.mons.length o st.mons _ hs with
        h2 | ⟨m', _, h2 | h2⟩
      · cases h2
      · cases h2
      · cases h2
    rcases checkHealth_done_cases c w desired st o hscan with
      ⟨nm0, t, _, he⟩ | ⟨_, _, he⟩ | ⟨_, _, _, _, _, he⟩ | ⟨_, _, _, _, _, _, he⟩ |
      ⟨m0, mt, _, _, _, _, _, hmons, he⟩ | ⟨_, _, _, he⟩ <;> rw [he] at hmem
    · rcases List.mem_append.1 hmem with h1 | h1
      · exact absurd h1 hscannot
      · simp at h1
    · rcases List.mem_append.1 hmem with h1 | h1
      · exact absurd h1 hscannot
      · simp at h1
    · exact absurd hmem hscannot
    · exact absurd hmem hscannot
    · rcases List.mem_append.1 hmem with h1 | h1
      · exact absurd h1 hscannot
      · exact ⟨m0, mt, hmons, by simpa using h1⟩
    · exact absurd hmem hscannot
  · rw [checkHealth_early c w desired st o hscan] at hmem
    have hs : Action.scaleDownRemove nm
        ∈ (scanOut (scanMons st.quorum desired st.mons.length o st.mons
          ⟨c.monitors.map (·.1), c, w, true, []⟩)).trace := by
      rw [hscan]
      exact hmem
    rcases scanMons_trace_new st.quorum desired st.mons.length o st.mons _ hs with
      h2 | ⟨m', _, h2 | h2⟩
    · cases h2
    · cases h2
    · cases h2

/-- Witness for `checkHealth_scaledown_head`: with three healthy mons "x",
"y", "z" and a desired count of 1, the member removed is the head "x". -/
theorem checkHealth_scaledown_head_witness :
    ∃ m0 mt, ([⟨"x", 0⟩, ⟨"y", 1⟩, ⟨"z", 2⟩] : List MonMapEntry) = m0 :: mt ∧
      "x" = m0.name :=
  checkHealth_scaledown_head
    ⟨[("x", ⟨"x", "10.0.1.1", 6790⟩), ("y", ⟨"y", "10.0.1.2", 6790⟩),
      ("z", ⟨"z", "10.0.1.3", 6790⟩)], [], [], 9, false⟩ ⟨[], [], []⟩ 1
    ⟨[⟨"x", 0⟩, ⟨"y", 1⟩, ⟨"z", 2⟩], [0, 1, 2]⟩
    ⟨fun _ => okRemoval, okFailover, false, 0⟩ "x" (by decide)

/-- **C9**: the two failover-dispatch passes use different current-count
sources: a dispatch for a reported daemon out of quorum past its timeout
carries the reported mon-map size, while a dispatch for a membership daemon
absent from the report carries the size of `clusterInfo.Monitors`; in both
cases `failMon` resolves to removal exactly when the carried count exceeds
the desired count, and to failover otherwise. -/
theorem failMon_count_sources (c : ClusterState) (w : World) (desired : Int)
    (st : MonStatusReport) (o : HealthOracle)
    (hnd : (st.mons.map (·.name)).Nodup) :
    (∀ cnt nm, Action.failOutOfQuorum cnt nm ∈ (checkHealth c w desired st o).trace →
      cnt = st.mons.length) ∧
    (∀ cnt nm, Action.failNotFound cnt nm ∈ (checkHealth c w desired st o).trace →
      cnt = c.monitors.length) ∧
    (∀ cm ww cnt nm, failMon cm ww o cnt desired nm =
      if (cnt : Int) > desired then (removeMon cm ww (o.removal nm) nm).2
      else (failoverMon cm ww o.failover nm).2) := by
  have hinv : NotFoundInv st.mons ⟨c.monitors.map (·.1), c, w, true, []⟩ :=
    fun m _ => mem_keys_iff_lookup_isSome c.monitors m.name
  have hfooq : ∀ {s1 : ScanSt},
      scanMons st.quorum desired st.mons.length o st.mons
        ⟨c.monitors.map (·.1), c, w, true, []⟩ = .inl s1 ∨
      scanMons st.quorum desired st.mons.length o st.mons
        ⟨c.monitors.map (·.1), c, w, true, []⟩ = .inr s1 →
      (∀ cnt nm, Action.failOutOfQuorum cnt nm ∈ s1.trace → cnt = st.mons.length) ∧
      (∀ cnt nm, Action.failNotFound cnt nm ∉ s1.trace) := by
    intro s1 hcase
    have hs : ∀ a : Action, a ∈ s1.trace →
        a ∈ (scanOut (scanMons st.quorum desired st.mons.length o st.mons
          ⟨c.monitors.map (·.1), c, w, true, []⟩)).trace := by
      intro a ha
      rcases hcase with h | h <;> rw [h] <;> exact ha
    constructor
    · intro cnt nm hmem
      rcases scanMons_trace_new st.quorum desired st.mons.length o st.mons _
        (hs _ hmem) with h2 | ⟨m', _, h2 | h2⟩
      · cases h2
      · cases h2
      · cases h2
        rfl
    · intro cnt nm hmem
      rcases scanMons_trace_new st.quorum desired st.mons.length o st.mons _
        (hs _ hmem) with h2 | ⟨m', _, h2 | h2⟩ <;> cases h2
  refine ⟨?_, ?_, fun cm ww cnt nm => rfl⟩
  · intro cnt nm hmem
    rcases hscan : scanMons st.quorum desired st.mons.length o st.mons
        ⟨c.monitors.map (·.1), c, w, true, []⟩ with s | s
    · have hsc := hfooq (Or.inl hscan)
      rcases checkHealth_done_cases c w desired st o hscan with
        ⟨nm0, t, _, he⟩ | ⟨_, _, he⟩ | ⟨_, _, _, _, _, he⟩ | ⟨_, _, _, _, _, _, he⟩ |
        ⟨m0, mt, _, _, _, _, _, _, he⟩ | ⟨_, _, _, he⟩ <;> rw [he] at hmem
      · rcases List.mem_append.1 hmem with h1 | h1
        · exact hsc.1 cnt nm h1
        · simp at h1
      · rcases List.mem_append.1 hmem with h1 | h1
        · exact hsc.1 cnt nm h1
        · simp at h1
      · exact hsc.1 cnt nm hmem
      · exact hsc.1 cnt nm hmem
      · rcases List.mem_append.1 hmem with h1 | h1
        · exact hsc.1 cnt nm h1
        · simp at h1
      · exact hsc.1 cnt nm hmem
    · rw [checkHealth_early c w desired st o hscan] at hmem
      exact (hfooq (Or.inr hscan)).1 cnt nm hmem
  · intro cnt nm hmem
    rcases hscan : scanMons st.quorum desired st.mons.length o st.mons
        ⟨c.monitors.map (·.1), c, w, true, []⟩ with s | s
    · have hsc := hfooq (Or.inl hscan)
      have hmons : s.cluster.monitors = c.monitors :=
        scanMons_monitors_inv st.quorum desired st.mons.length o st.mons _ s hnd hinv hscan
      rcases checkHealth_done_cases c w desired st o hscan with
        ⟨nm0, t, _, he⟩ | ⟨_, _, he⟩ | ⟨_, _, _, _, _, he⟩ | ⟨_, _, _, _, _, _, he⟩ |
        ⟨m0, mt, _, _, _, _, _, _, he⟩ | ⟨_, _, _, he⟩ <;> rw [he] at hmem
      · rcases List.mem_append.1 hmem with h1 | h1
        · exact absurd h1 (hsc.2 cnt nm)
        · have : cnt = s.cluster.monitors.length := by
            have h2 : Action.failNotFound cnt nm
                = Action.failNotFound s.cluster.monitors.length nm0 := by
              simpa using h1
            cases h2
            rfl
          rw [this, hmons]
      · rcases List.mem_append.1 hmem with h1 | h1
        · exact absurd h1 (hsc.2 cnt nm)
        · simp at h1
      · exact absurd hmem (hsc.2 cnt nm)
      · exact absurd hmem (hsc.2 cnt nm)
      · rcases List.mem_append.1 hmem with h1 | h1
        · exact absurd h1 (hsc.2 cnt nm)
        · simp at h1
      · exact absurd hmem (hsc.2 cnt nm)
    · rw [checkHealth_early c w desired st o hscan] at hmem
      exact absurd hmem ((hfooq (Or.inr hscan)).2 cnt nm)

/-- Witness for `failMon_count_sources`: membership {"a", "b"} with only "a"
reported; the dispatch for the absent "b" carries the membership size 2
(not the reported size 1). -/
theorem failMon_count_sources_witness :
    Action.failNotFound 2 "b" ∈ (checkHealth
        ⟨[("a", ⟨"a", "10.0.0.1", 6790⟩), ("b", ⟨"b", "10.0.0.2", 6790⟩)], [], [], 4,
          false⟩ ⟨[], [], []⟩ 5 ⟨[⟨"a", 0⟩], [0]⟩
        ⟨fun _ => okRemoval, okFailover, false, 0⟩).trace ∧
    (2 : Nat) = ([("a", (⟨"a", "10.0.0.1", 6790⟩ : MonInfo)),
      ("b", ⟨"b", "10.0.0.2", 6790⟩)] : List (String × MonInfo)).length := by
  constructor
  · decide
  · exact (failMon_count_sources
      ⟨[("a", ⟨"a", "10.0.0.1", 6790⟩), ("b", ⟨"b", "10.0.0.2", 6790⟩)], [], [], 4, false⟩
      ⟨[], [], []⟩ 5 ⟨[⟨"a", 0⟩], [0]⟩
      ⟨fun _ => okRemoval, okFailover, false, 0⟩ (by decide)).2.1 2 "b" (by decide)

/-! ## The rolling-update coordinator (`UpdateStatefulSetAndWait`) -/

/-- The status sub-resource of a statefulset. -/
structure StsStatus where
  observedGeneration : Int
  updatedReplicas : Int
  readyReplicas : Int
deriving DecidableEq

/-- A statefulset as read from or written to the API: its name, its
update-strategy type (`Spec.UpdateStrategy.Type`), and its status. -/
structure StatefulSetObj where
  name : String
  updateStrategyType : String
  status : StsStatus
deriving DecidableEq

/-- `apps.RollingUpdateStatefulSetStrategyType`. -/
def RollingUpdateStatefulSetStrategyType : String := "RollingUpdate"

/-- One invocation of the caller-supplied verification callback: `stop`
(tagged with its retry attempt index) or `continue`. -/
inductive CallbackCall where
  | stop (attempt : Nat)
  | cont
deriving DecidableEq

/-- Outcomes of the external calls one `UpdateStatefulSetAndWait` makes:
the initial read, the per-attempt outcome of the "stop" verification, the
update submission, the per-attempt polled reads, and the "continue"
verification. -/
structure StsEnv where
  original : Option StatefulSetObj
  verifyStop : Nat → Bool
  updateOk : Bool
  poll : Nat → Option StatefulSetObj
  verifyContinue : Bool

/-- Modelled from the spec: `util.Retry(5, 60*time.Second, f)` (declared
outside `src/`) — up to `n` attempts of `f` with a fixed delay, succeeding
on the first success and failing once attempts are exhausted.  Returns
whether it succeeded together with the indices of the attempts made. -/
def retryAttempts (f : Nat → Bool) : Nat → Nat → Bool × List Nat
  | 0, _ => (false, [])
  | Nat.succ n, i =>
    if f i then (true, [i])
    else
      let r := retryAttempts f n (i + 1)
      (r.1, i :: r.2)

/-- The rollout-completion condition of the polling loop: the observed
generation differs from the pre-update snapshot and the latest status shows
at least one updated replica and at least one ready replica. -/
def updateComplete (original latest : StatefulSetObj) : Bool :=
  (latest.status.observedGeneration != original.status.observedGeneration)
    && decide (latest.status.updatedReplicas > 0)
    && decide (latest.status.readyReplicas > 0)

/-- The fixed delay in seconds between poll attempts (`sleepTime := 2`). -/
def updateSleepTime : Nat := 2

/-- The bound on poll attempts (`attempts := 30`). -/
def updateAttempts : Nat := 30

/-- The outcome of one `UpdateStatefulSetAndWait` call: the returned value
or error, the verification-callback invocations in order, and the number of
re-reads the polling loop performed. -/
structure UpdateResult where
  ret : Except String StatefulSetObj
  calls : List CallbackCall
  reads : Nat

/-- The polling loop of `UpdateStatefulSetAndWait`: up to `fuel` more
attempts starting at attempt index `i`; exhausting the budget is the
"gave up waiting" error. -/
def pollRollout (env : StsEnv) (sts original : StatefulSetObj) :
    Nat → Nat → Except String StatefulSetObj × List CallbackCall × Nat
  | 0, _ => (.error ("gave up waiting for statefulset " ++ sts.name ++ " to update"), [], 0)
  | Nat.succ fuel, i =>
    match env.poll i with
    | none => (.error ("failed to get statefulset " ++ sts.name), [], 1)
    | some latest =>
      if updateComplete original latest then
        if env.verifyContinue then
          (.ok sts, [CallbackCall.cont], 1)
        else
          (.error ("failed to check if statefulset " ++ sts.name ++ " can be updated"),
           [CallbackCall.cont], 1)
      else
        let r := pollRollout env sts original fuel (i + 1)
        (r.1, r.2.1, r.2.2 + 1)

/-- `UpdateStatefulSetAndWait`: read the live spec, require the rolling
update strategy, pre-verify with "stop" (retried up to 5 times), submit the
update, poll for completion (30 attempts, fixed delay), then post-verify
with "continue" exactly once. -/
def UpdateStatefulSetAndWait (sts : StatefulSetObj) (env : StsEnv) : UpdateResult :=
  match env.original with
  | none => ⟨.error ("failed to get statefulset " ++ sts.name), [], 0⟩
  | some original =>
    if original.updateStrategyType ≠ RollingUpdateStatefulSetStrategyType then
      ⟨.error "can only update statefulsets with rolling updates", [], 0⟩
    else
      let retry := retryAttempts env.verifyStop 5 0
      let stopCalls := retry.2.map CallbackCall.stop
      if !retry.1 then
        ⟨.error ("failed to check if statefulset " ++ sts.name ++ " can be updated"),
         stopCalls, 0⟩
      else if !env.updateOk then
        ⟨.error ("failed to update statefulset " ++ sts.name), stopCalls, 0⟩
      else
        let r := pollRollout env sts original updateAttempts 0
        ⟨r.1, stopCalls ++ r.2.1, r.2.2⟩

/-- **C7**: if the live spec's update strategy is not the rolling kind, the
call fails immediately and the verification callback is never invoked, with
either intent. -/
theorem updateStatefulSet_rejects_strategy (sts : StatefulSetObj) (env : StsEnv)
    (original : StatefulSetObj) (ho : env.original = some original)
    (hs : original.updateStrategyType ≠ RollingUpdateStatefulSetStrategyType) :
    (UpdateStatefulSetAndWait sts env).ret
      = .error "can only update statefulsets with rolling updates" ∧
    (UpdateStatefulSetAndWait sts env).calls = [] := by
  unfold UpdateStatefulSetAndWait
  rw [ho]
  dsimp only
  rw [if_pos hs]
  exact ⟨rfl, rfl⟩

/-- Witness for `updateStatefulSet_rejects_strategy`: an `OnDelete`
statefulset is rejected with zero callback invocations. -/
theorem updateStatefulSet_rejects_strategy_witness :
    (UpdateStatefulSetAndWait ⟨"rgw", "OnDelete", ⟨1, 1, 1⟩⟩
        ⟨some ⟨"rgw", "OnDelete", ⟨1, 1, 1⟩⟩, fun _ => true, true, fun _ => none,
          true⟩).ret
      = .error "can only update statefulsets with rolling updates" ∧
    (UpdateStatefulSetAndWait ⟨"rgw", "OnDelete", ⟨1, 1, 1⟩⟩
        ⟨some ⟨"rgw", "OnDelete", ⟨1, 1, 1⟩⟩, fun _ => true, true, fun _ => none,
          true⟩).calls = [] :=
  updateStatefulSet_rejects_strategy _ _ _ rfl (by decide)

theorem pollRollout_reads_le (env : StsEnv) (sts original : StatefulSetObj) :
    ∀ (fuel i : Nat), (pollRollout env sts original fuel i).2.2 ≤ fuel := by
  intro fuel
  induction fuel with
  | zero =>
    intro i
    exact Nat.le_refl 0
  | succ n ih =>
    intro i
    unfold pollRollout
    rcases env.poll i with _ | latest
    · exact Nat.le_add_left 1 n
    · dsimp only
      split
      · split
        · exact Nat.le_add_left 1 n
        · exact Nat.le_add_left 1 n
      · exact Nat.succ_le_succ (ih (i + 1))

theorem pollRollout_succ_none (env : StsEnv) (sts original : StatefulSetObj)
    (fuel i : Nat) (hp : env.poll i = none) :
    pollRollout env sts original (Nat.succ fuel) i =
      (.error ("failed to get statefulset " ++ sts.name), [], 1) := by
  unfold pollRollout
  rw [hp]

theorem pollRollout_succ_complete (env : StsEnv) (sts original : StatefulSetObj)
    (fuel i : Nat) {latest : StatefulSetObj} (hp : env.poll i = some latest)
    (hc : updateComplete original latest = true) :
    pollRollout env sts original (Nat.succ fuel) i =
      (if env.verifyContinue then (.ok sts, [CallbackCall.cont], 1)
       else (.error ("failed to check if statefulset " ++ sts.name ++ " can be updated"),
         [CallbackCall.cont], 1)) := by
  unfold pollRollout
  rw [hp]
  dsimp only
  rw [if_pos hc]

theorem pollRollout_succ_incomplete (env : StsEnv) (sts original : StatefulSetObj)
    (fuel i : Nat) {latest : StatefulSetObj} (hp : env.poll i = some latest)
    (hc : updateComplete original latest = false) :
    pollRollout env sts original (Nat.succ fuel) i =
      ((pollRollout env sts original fuel (i + 1)).1,
       (pollRollout env sts original fuel (i + 1)).2.1,
       (pollRollout env sts original fuel (i + 1)).2.2 + 1) := by
  simp only [pollRollout]
  rw [hp]
  dsimp only
  rw [if_neg (by rw [hc]; exact Bool.false_ne_true)]

theorem pollRollout_ok (env : StsEnv) (sts original : StatefulSetObj) :
    ∀ (fuel i : Nat) (s' : StatefulSetObj),
      (pollRollout env sts original fuel i).1 = .ok s' →
      (∃ j latest, i ≤ j ∧ j < i + fuel ∧ env.poll j = some latest ∧
        updateComplete original latest = true) ∧
      (pollRollout env sts original fuel i).2.1 = [CallbackCall.cont] := by
  intro fuel
  induction fuel with
  | zero =>
    intro i s' h
    cases h
  | succ n ih =>
    intro i s' h
    rcases hp : env.poll i with _ | latest
    · rw [pollRollout_succ_none env sts original n i hp] at h
      cases h
    · rcases hc : updateComplete original latest with _ | _
      · rw [pollRollout_succ_incomplete env sts original n i hp hc] at h ⊢
        dsimp only at h ⊢
        rcases ih (i + 1) s' h with ⟨⟨j, latest', hj1, hj2, hj3, hj4⟩, hcalls⟩
        exact ⟨⟨j, latest', Nat.le_of_succ_le hj1, by omega, hj3, hj4⟩, hcalls⟩
      · rw [pollRollout_succ_complete env sts original n i hp hc] at h ⊢
        by_cases hv : env.verifyContinue = true
        · rw [if_pos hv] at h ⊢
          exact ⟨⟨i, latest, Nat.le_refl i, by omega, hp, hc⟩, rfl⟩
        · rw [if_neg hv] at h
          cases h

theorem pollRollout_gave_up (env : StsEnv) (sts original : StatefulSetObj) :
    ∀ (fuel i : Nat),
      (∀ j, i ≤ j → j < i + fuel → ∃ l, env.poll j = some l ∧
        updateComplete original l = false) →
      pollRollout env sts original fuel i =
        (.error ("gave up waiting for statefulset " ++ sts.name ++ " to update"),
         [], fuel) := by
  intro fuel
  induction fuel with
  | zero =>
    intro i _
    rfl
  | succ n ih =>
    intro i hyp
    obtain ⟨l, hl, hcomp⟩ := hyp i (Nat.le_refl i) (Nat.lt_add_of_pos_right (Nat.succ_pos n))
    unfold pollRollout
    rw [hl]
    dsimp only
    rw [if_neg (by rw [hcomp]; exact Bool.false_ne_true)]
    rw [ih (i + 1) (fun j hj1 hj2 => hyp j (Nat.le_of_succ_le hj1) (by omega))]

theorem update_sts_none_eq (sts : StatefulSetObj) (env : StsEnv)
    (ho : env.original = none) :
    UpdateStatefulSetAndWait sts env =
      ⟨.error ("failed to get statefulset " ++ sts.name), [], 0⟩ := by
  unfold UpdateStatefulSetAndWait
  rw [ho]

theorem update_sts_reject_eq (sts : StatefulSetObj) (env : StsEnv)
    {original : StatefulSetObj} (ho : env.original = some original)
    (hs : original.updateStrategyType ≠ RollingUpdateStatefulSetStrategyType) :
    UpdateStatefulSetAndWait sts env =
      ⟨.error "can only update statefulsets with rolling updates", [], 0⟩ := by
  unfold UpdateStatefulSetAndWait
  rw [ho]
  dsimp only
  rw [if_pos hs]

theorem update_sts_retry_failed_eq (sts : StatefulSetObj) (env : StsEnv)
    {original : StatefulSetObj} (ho : env.original = some original)
    (hs : ¬ original.updateStrategyType ≠ RollingUpdateStatefulSetStrategyType)
    (hr : (retryAttempts env.verifyStop 5 0).1 = false) :
    UpdateStatefulSetAndWait sts env =
      ⟨.error ("failed to check if statefulset " ++ sts.name ++ " can be updated"),
       (retryAttempts env.verifyStop 5 0).2.map CallbackCall.stop, 0⟩ := by
  unfold UpdateStatefulSetAndWait
  rw [ho]
  dsimp only
  rw [if_neg hs, if_pos (by rw [hr]; rfl)]

theorem update_sts_update_failed_eq (sts : StatefulSetObj) (env : StsEnv)
    {original : StatefulSetObj} (ho : env.original = some original)
    (hs : ¬ original.updateStrategyType ≠ RollingUpdateStatefulSetStrategyType)
    (hr : (retryAttempts env.verifyStop 5 0).1 = true)
    (hu : env.updateOk = false) :
    UpdateStatefulSetAndWait sts env =
      ⟨.error ("failed to update statefulset " ++ sts.name),
       (retryAttempts env.verifyStop 5 0).2.map CallbackCall.stop, 0⟩ := by
  unfold UpdateStatefulSetAndWait
  rw [ho]
  dsimp only
  rw [if_neg hs, if_neg (by rw [hr]; exact Bool.false_ne_true),
    if_pos (by rw [hu]; rfl)]

theorem update_sts_run_eq (sts : StatefulSetObj) (env : StsEnv)
    {original : StatefulSetObj} (ho : env.original = some original)
    (hs : ¬ original.updateStrategyType ≠ RollingUpdateStatefulSetStrategyType)
    (hr : (retryAttempts env.verifyStop 5 0).1 = true)
    (hu : env.updateOk = true) :
    UpdateStatefulSetAndWait sts env =
      ⟨(pollRollout env sts original updateAttempts 0).1,
       (retryAttempts env.verifyStop 5 0).2.map CallbackCall.stop
         ++ (pollRollout env sts original updateAttempts 0).2.1,
       (pollRollout env sts original updateAttempts 0).2.2⟩ := by
  unfold UpdateStatefulSetAndWait
  rw [ho]
  dsimp only
  rw [if_neg hs, if_neg (by rw [hr]; exact Bool.false_ne_true),
    if_neg (by rw [hu]; exact Bool.false_ne_true)]

/-- **C8**: the polling loop performs at most 30 re-reads (with a fixed
2-second delay, `updateSleepTime`); the call succeeds only when some
re-read shows a changed generation with at least one updated and one ready
replica, in which case the "continue" verification is invoked exactly once;
and when every one of the 30 re-reads fails the completion condition, the
call fails with the "gave up waiting" error after exactly 30 re-reads. -/
theorem updateStatefulSet_poll_spec :
    updateSleepTime = 2 ∧ updateAttempts = 30 ∧
    (∀ (sts : StatefulSetObj) (env : StsEnv),
      (UpdateStatefulSetAndWait sts env).reads ≤ updateAttempts) ∧
    (∀ (sts : StatefulSetObj) (env : StsEnv) (s' : StatefulSetObj),
      (UpdateStatefulSetAndWait sts env).ret = .ok s' →
      (∃ original j latest, env.original = some original ∧ j < updateAttempts ∧
        env.poll j = some latest ∧ updateComplete original latest = true) ∧
      (UpdateStatefulSetAndWait sts env).calls.count CallbackCall.cont = 1) ∧
    (∀ (sts : StatefulSetObj) (env : StsEnv) (original : StatefulSetObj),
      env.original = some original →
      original.updateStrategyType = RollingUpdateStatefulSetStrategyType →
      (retryAttempts env.verifyStop 5 0).1 = true →
      env.updateOk = true →
      (∀ j, j < updateAttempts → ∃ l, env.poll j = some l ∧
        updateComplete original l = false) →
      (UpdateStatefulSetAndWait sts env).ret
          = .error ("gave up waiting for statefulset " ++ sts.name ++ " to update") ∧
        (UpdateStatefulSetAndWait sts env).reads = updateAttempts) := by
  have hcountstop : ∀ (l : List Nat),
      (l.map CallbackCall.stop).count CallbackCall.cont = 0 := by
    intro l
    induction l with
    | nil => rfl
    | cons a t ih =>
      rw [List.map_cons, List.count_cons]
      rw [ih]
      simp
  refine ⟨rfl, rfl, ?_, ?_, ?_⟩
  · intro sts env
    unfold UpdateStatefulSetAndWait
    rcases env.original with _ | original
    · exact Nat.zero_le _
    · dsimp only
      split
      · exact Nat.zero_le _
      · split
        · exact Nat.zero_le _
        · split
          · exact Nat.zero_le _
          · exact pollRollout_reads_le env sts original updateAttempts 0
  · intro sts env s' h
    rcases ho : env.original with _ | original
    · rw [update_sts_none_eq sts env ho] at h
      cases h
    · by_cases hstrat : original.updateStrategyType ≠ RollingUpdateStatefulSetStrategyType
      · rw [update_sts_reject_eq sts env ho hstrat] at h
        cases h
      · rcases hr : (retryAttempts env.verifyStop 5 0).1 with _ | _
        · rw [update_sts_retry_failed_eq sts env ho hstrat hr] at h
          cases h
        · rcases hu : env.updateOk with _ | _
          · rw [update_sts_update_failed_eq sts env ho hstrat hr hu] at h
            cases h
          · rw [update_sts_run_eq sts env ho hstrat hr hu] at h ⊢
            dsimp only at h ⊢
            rcases pollRollout_ok env sts original updateAttempts 0 s' h with
              ⟨⟨j, latest, _, hj2, hj3, hj4⟩, hcalls⟩
            constructor
            · exact ⟨original, j, latest, rfl, by omega, hj3, hj4⟩
            · rw [List.count_append, hcountstop, hcalls]
              rfl
  · intro sts env original ho hs hretry hupd hyp
    unfold UpdateStatefulSetAndWait
    rw [ho]
    dsimp only
    rw [if_neg (by rw [hs]; exact fun hne => hne rfl), if_neg (by rw [hretry]; exact
      Bool.false_ne_true), if_neg (by rw [hupd]; exact Bool.false_ne_true)]
    rw [pollRollout_gave_up env sts original updateAttempts 0
      (fun j hj1 hj2 => hyp j (by omega))]
    exact ⟨rfl, rfl⟩

/-- Witness for `updateStatefulSet_poll_spec`: a rolling statefulset whose
status never changes makes the call fail with the "gave up waiting" error
after exactly `updateAttempts = 30` re-reads. -/
theorem updateStatefulSet_poll_spec_witness :
    (UpdateStatefulSetAndWait ⟨"db", "RollingUpdate", ⟨5, 1, 1⟩⟩
        ⟨some ⟨"db", "RollingUpdate", ⟨5, 1, 1⟩⟩, fun _ => true, true,
          fun _ => some ⟨"db", "RollingUpdate", ⟨5, 1, 1⟩⟩, true⟩).ret
      = .error "gave up waiting for statefulset db to update" ∧
    (UpdateStatefulSetAndWait ⟨"db", "RollingUpdate", ⟨5, 1, 1⟩⟩
        ⟨some ⟨"db", "RollingUpdate", ⟨5, 1, 1⟩⟩, fun _ => true, true,
          fun _ => some ⟨"db", "RollingUpdate", ⟨5, 1, 1⟩⟩, true⟩).reads
      = updateAttempts :=
  updateStatefulSet_poll_spec.2.2.2.2 ⟨"db", "RollingUpdate", ⟨5, 1, 1⟩⟩
    ⟨some ⟨"db", "RollingUpdate", ⟨5, 1, 1⟩⟩, fun _ => true, true,
      fun _ => some ⟨"db", "RollingUpdate", ⟨5, 1, 1⟩⟩, true⟩
    ⟨"db", "RollingUpdate", ⟨5, 1, 1⟩⟩ rfl rfl (by decide) rfl
    (fun j _ => ⟨⟨"db", "RollingUpdate", ⟨5, 1, 1⟩⟩, rfl, by decide⟩)

end Rook
